import Mathlib

/-!
Verification of the schema_guard migration planner (Rust) against its
natural-language specification.  The Rust sources under `src/` are shallowly
embedded below: `&str`/`String` values become `List Char`, `HashMap` becomes an
association list (Rust's `HashMap` iteration order is unspecified; the
embedding fixes insertion order), `HashSet` becomes a de-duplicating list in
insertion order, fallible code returns `Except`, and a Rust panic is modelled
as the `RunErr.crash` error.  Each definition mirrors one Rust item and names
its source location.
-/

set_option maxRecDepth 8000

deriving instance DecidableEq for Except

namespace SchemaGuard

/-- Characters of a Rust `String`/`&str`. -/
abbrev Chars := List Char

/-- The characters of a Lean string literal, used to transcribe Rust literals. -/
def strC (s : String) : Chars := s.data

/-- ASCII fragment of Rust `char::is_whitespace` (the planner only meets ASCII). -/
def isWs (c : Char) : Bool := c = ' ' || c = '\n' || c = '\t' || c = '\r'

/-- Rust `str::trim`. -/
def trimChars (s : Chars) : Chars :=
  ((s.dropWhile isWs).reverse.dropWhile isWs).reverse

/-- ASCII fragment of Rust `str::to_lowercase`. -/
def lowerChars (s : Chars) : Chars := s.map Char.toLower

/-- ASCII fragment of Rust `str::to_uppercase`. -/
def upperChars (s : Chars) : Chars := s.map Char.toUpper

/-- Rust `str::find(c: char)`: byte index of the first occurrence, as a char index. -/
def findCharIdx (c : Char) : Chars → Option Nat
  | [] => none
  | a :: rest => if a = c then some 0 else (findCharIdx c rest).map (· + 1)

/-- Rust `str::find(pat: &str)`: index of the first occurrence of a substring. -/
def findSub (pat : Chars) : Chars → Option Nat
  | [] => if pat.isEmpty then some 0 else none
  | a :: rest =>
    if pat.isPrefixOf (a :: rest) then some 0 else (findSub pat rest).map (· + 1)

/-- Rust `str::contains(pat: &str)`. -/
def containsSub (pat s : Chars) : Bool := (findSub pat s).isSome

/-- Rust `str::split(c: char)` (keeps empty pieces, like Rust). -/
def splitCharAux (c : Char) : Chars → Chars → List Chars
  | [], acc => [acc.reverse]
  | a :: rest, acc =>
    if a = c then acc.reverse :: splitCharAux c rest [] else splitCharAux c rest (a :: acc)

/-- Rust `str::split(c: char)`. -/
def splitChar (c : Char) (s : Chars) : List Chars := splitCharAux c s []

/-- Rust `str::splitn(2, c)` as used by `resolve_templates`: split at the first `c`. -/
def splitAtFirst (c : Char) (s : Chars) : Chars × Chars :=
  match findCharIdx c s with
  | none => (s, [])
  | some i => (s.take i, s.drop (i + 1))

/-- The decimal digits of `n`, most significant first (`format!("{}", n)` for `usize`). -/
def natChars (n : Nat) : Chars := ((Nat.digits 10 n).map Nat.digitChar).reverse

/-- Decimal rendering of a natural number, with `0` rendered as `"0"` like Rust. -/
def natRepr (n : Nat) : Chars := if n = 0 then strC "0" else natChars n

/-- Decimal rendering of an integer (`format!("{}", i)` for `i64`). -/
def intRepr (i : Int) : Chars :=
  if i < 0 then '-' :: natRepr i.natAbs else natRepr i.natAbs

/-- Rust `Debug` rendering of a `Vec<String>`, e.g. `["a", "b"]`. -/
def debugList (l : List Chars) : Chars :=
  strC "[" ++ List.intercalate (strC ", ") (l.map (fun s => strC "\"" ++ s ++ strC "\""))
    ++ strC "]"

/-- Rust `Vec::join(", ")`, the shape produced by the emit loops of the planner. -/
def joinComma : List Chars → Chars
  | [] => []
  | [x] => x
  | x :: y :: rest => x ++ strC ", " ++ joinComma (y :: rest)

/-- Digits accumulated left to right, as Rust `str::parse` reads them. -/
def parseDigitsAux : Chars → Nat → Option Nat
  | [], acc => some acc
  | c :: rest, acc =>
    if c.isDigit then parseDigitsAux rest (acc * 10 + (c.toNat - 48)) else none

/-- All-digit parse of a non-empty string (helper for `rustParseI32`). -/
def parseDigits (s : Chars) : Option Nat :=
  if s.isEmpty then none else parseDigitsAux s 0

/-- Rust `str::parse::<i32>()`: optional sign, digits, with the i32 range check. -/
def rustParseI32 (s : Chars) : Option Int :=
  match s with
  | c :: rest =>
    if c = '+' then
      (parseDigits rest).bind fun v => if v ≤ 2147483647 then some (v : Int) else none
    else if c = '-' then
      (parseDigits rest).bind fun v => if v ≤ 2147483648 then some (-(v : Int)) else none
    else
      (parseDigits (c :: rest)).bind fun v => if v ≤ 2147483647 then some (v : Int) else none
  | [] => none

/-- Rust `utils::safe_sql_name` (src/utils.rs:103): truncate at the first
space, `.`, `;`, newline or tab. -/
def safeSqlName (s : Chars) : Chars :=
  match s.findIdx? (fun c => c = ' ' || c = '.' || c = ';' || c = '\n' || c = '\t') with
  | none => s
  | some i => s.take i

/-- Rust `utils::str2bool` (src/utils.rs:87). -/
def str2bool (input : Chars) (dft : Bool) : Bool :=
  if input.isEmpty then dft
  else
    let input := lowerChars input
    (strC "+").isPrefixOf input || (strC "yes").isPrefixOf input
      || (strC "true").isPrefixOf input || (strC "ok").isPrefixOf input
      || (strC "on").isPrefixOf input || (strC "y").isPrefixOf input
      || (strC "1").isPrefixOf input

/-- Rust `utils::as_esc` (src/utils.rs:13): cut an inline `--` comment and trim. -/
def asEsc (val : Chars) : Chars :=
  match findSub (strC "--") val with
  | none => val
  | some i => trimChars (val.take i)

/-- Outcome of the type-change classifier (src/table.rs:1047, enum `TypeChange`). -/
inductive TypeChange where
  | noChange
  | sizeExtension
  | sizeReduction
  | compatible
  | incompatible
deriving DecidableEq

/-- Rust `parse_type_size` (src/table.rs:1065).  The slice
`type_lower[paren_pos + 1 .. type_lower.len() - 1]` panics when `(` is the last
character; the panic is modelled as `Except.error`. -/
def parseTypeSize (typeStr : Chars) : Except Chars (Chars × Option Int × Option Int) :=
  let typeLower := trimChars (lowerChars typeStr)
  match findCharIdx '(' typeLower with
  | none => .ok (typeLower, none, none)
  | some parenPos =>
    if parenPos + 1 > typeLower.length - 1 then
      .error (strC "byte index out of range (slice starts after it ends)")
    else
      let baseType := trimChars (typeLower.take parenPos)
      let params := (typeLower.drop (parenPos + 1)).take (typeLower.length - 1 - (parenPos + 1))
      if params.any (· == ',') then
        let parts := splitChar ',' params
        let precision := (parts.get? 0).bind fun s => rustParseI32 (trimChars s)
        let scale := (parts.get? 1).bind fun s => rustParseI32 (trimChars s)
        .ok (baseType, precision, scale)
      else
        .ok (baseType, rustParseI32 (trimChars params), none)

/-- The base-type alias table of `analyze_type_change` (src/table.rs:1095). -/
def normalizeBase (t : Chars) : Chars :=
  if t = strC "int" ∨ t = strC "int4" ∨ t = strC "integer" ∨ t = strC "serial" then strC "int4"
  else if t = strC "int8" ∨ t = strC "bigint" ∨ t = strC "bigserial" ∨ t = strC "serial8" then strC "int8"
  else if t = strC "int2" ∨ t = strC "smallint" ∨ t = strC "smallserial" ∨ t = strC "serial2" then strC "int2"
  else if t = strC "float4" ∨ t = strC "real" then strC "float4"
  else if t = strC "float" ∨ t = strC "float8" ∨ t = strC "double precision" ∨ t = strC "double" then strC "float8"
  else if t = strC "bool" ∨ t = strC "boolean" then strC "bool"
  else if t = strC "varchar" ∨ t = strC "character varying" then strC "varchar"
  else if t = strC "char" ∨ t = strC "character" ∨ t = strC "bpchar" then strC "char"
  else if t = strC "text" then strC "text"
  else if t = strC "numeric" ∨ t = strC "decimal" then strC "numeric"
  else if t = strC "timestamptz" ∨ t = strC "timestamp with time zone" then strC "timestamptz"
  else if t = strC "timestamp" ∨ t = strC "timestamp without time zone" then strC "timestamp"
  else if t = strC "timetz" ∨ t = strC "time with time zone" then strC "timetz"
  else if t = strC "time" ∨ t = strC "time without time zone" then strC "time"
  else t

/-- The same-base arm of `analyze_type_change` (src/table.rs:1120). -/
def sameBaseChange (existingSize desiredSize existingScale desiredScale : Option Int) : TypeChange :=
  match existingSize, desiredSize with
  | some e, some d =>
    if e = d then
      match existingScale, desiredScale with
      | some es, some ds =>
        if es = ds then .noChange
        else if ds > es then .sizeExtension
        else .sizeReduction
      | none, none => .noChange
      | _, _ => .sizeExtension
    else if d > e then .sizeExtension
    else .sizeReduction
  | none, some _ => .sizeExtension
  | some _, none => .sizeExtension
  | none, none => .noChange

/-- The different-base arm of `analyze_type_change` (src/table.rs:1143). -/
def diffBaseChange (normExisting normDesired : Chars) (existingSize desiredSize : Option Int) :
    TypeChange :=
  let isSafePromotion :=
    (normExisting = strC "int2" ∧ normDesired = strC "int4")
    ∨ (normExisting = strC "int2" ∧ normDesired = strC "int8")
    ∨ (normExisting = strC "int4" ∧ normDesired = strC "int8")
    ∨ (normExisting = strC "float4" ∧ normDesired = strC "float8")
    ∨ (normExisting = strC "varchar" ∧ normDesired = strC "text")
    ∨ (normExisting = strC "char" ∧ normDesired = strC "text")
    ∨ (normExisting = strC "char" ∧ normDesired = strC "varchar")
  if isSafePromotion then .compatible
  else
    let minVarcharSize : Option Int :=
      if normExisting = strC "int2" then some 6
      else if normExisting = strC "int4" then some 11
      else if normExisting = strC "int8" then some 20
      else if normExisting = strC "float4" then some 15
      else if normExisting = strC "float8" then some 25
      else if normExisting = strC "numeric" then some ((existingSize.map (· + 2)).getD 40)
      else if normExisting = strC "bool" then some 5
      else if normExisting = strC "timestamp" ∨ normExisting = strC "timestamptz" then some 32
      else if normExisting = strC "time" ∨ normExisting = strC "timetz" then some 18
      else if normExisting = strC "date" then some 10
      else if normExisting = strC "uuid" then some 36
      else none
    let isSafeToVarchar :=
      if normDesired = strC "text" then minVarcharSize.isSome
      else if normDesired = strC "varchar" then
        match desiredSize with
        | some size => match minVarcharSize with
          | some mn => decide (size ≥ mn)
          | none => false
        | none => minVarcharSize.isSome
      else false
    if isSafeToVarchar then .compatible else .incompatible

/-- Rust `analyze_type_change` (src/table.rs:1089).  An `Except.error` is the
panic `parse_type_size` raises on a trailing `(`. -/
def analyzeTypeChange (existing desired : Chars) : Except Chars TypeChange :=
  match parseTypeSize existing, parseTypeSize desired with
  | .error e, _ => .error e
  | .ok _, .error e => .error e
  | .ok (existingBase, existingSize, existingScale),
    .ok (desiredBase, desiredSize, desiredScale) =>
    let normExisting := normalizeBase existingBase
    let normDesired := normalizeBase desiredBase
    if normExisting = normDesired then
      .ok (sameBaseChange existingSize desiredSize existingScale desiredScale)
    else
      .ok (diffBaseChange normExisting normDesired existingSize desiredSize)

/-- The `yaml_rust::Yaml` values the planner consumes (`Alias` is never met). -/
inductive Yaml where
  | nullV : Yaml
  | badValue : Yaml
  | boolV (b : Bool) : Yaml
  | intV (i : Int) : Yaml
  | realV (s : Chars) : Yaml
  | strV (s : Chars) : Yaml
  | arrV (xs : List Yaml) : Yaml
  | hashV (kvs : List (Chars × Yaml)) : Yaml

/-- `yaml["field"]`: hash lookup, `BadValue` when absent or not a hash. -/
def Yaml.get (y : Yaml) (k : String) : Yaml :=
  match y with
  | .hashV kvs =>
    match kvs.find? (fun kv => kv.1 = k.data) with
    | some kv => kv.2
    | none => .badValue
  | _ => .badValue

/-- `yaml_rust` `Yaml::is_null` (true only for `Null`, not for `BadValue`). -/
def Yaml.isNull : Yaml → Bool
  | .nullV => true
  | _ => false

/-- `yaml_rust` `Yaml::as_str`. -/
def Yaml.asStrO : Yaml → Option Chars
  | .strV s => some s
  | _ => none

/-- `yaml_rust` `Yaml::as_bool`. -/
def Yaml.asBoolO : Yaml → Option Bool
  | .boolV b => some b
  | _ => none

/-- `yaml_rust` `Yaml::as_vec`. -/
def Yaml.asVecO : Yaml → Option (List Yaml)
  | .arrV xs => some xs
  | _ => none

/-- Rust `utils::as_str` (src/utils.rs:27). -/
def asStr (input : Yaml) (field : String) (dft : Chars) : Chars :=
  if input.isNull then dft
  else
    match input.get field with
    | .realV v => v
    | .intV v => intRepr v
    | .strV v => v
    | .boolV v => if v then strC "true" else strC "false"
    | _ => dft

/-- Rust `utils::as_str_esc` (src/utils.rs:8). -/
def asStrEsc (input : Yaml) (field : String) : Chars := asEsc (asStr input field [])

/-- Rust `utils::as_stro` (src/utils.rs:61). -/
def asStro (input : Yaml) (field : String) : Option Chars :=
  if input.isNull then none
  else
    match input.get field with
    | .strV v => some v
    | _ => none

/-- Rust `utils::as_bool` (src/utils.rs:73). -/
def asBool (input : Yaml) (field : String) (dft : Bool) : Bool :=
  if input.isNull then dft
  else
    match input.get field with
    | .intV i => i = 1
    | .strV s => str2bool s dft
    | .boolV v => v
    | _ => dft

/-- Rust `utils::as_vec` (src/utils.rs:42), the seed-data reader. -/
def asVec (input : Yaml) (field : String) : List (List Chars) :=
  if input.isNull then []
  else
    match input.get field with
    | .arrV aa =>
      aa.map fun a =>
        match a with
        | .arrV vv => vv.map fun v => (v.asStrO).getD []
        | _ => []
    | _ => []

/-- Rust trait `utils::Named` (src/utils.rs:113). -/
class Named (α : Type) where
  getName : α → Chars

/-- Rust `utils::OrderedHashMap` (src/utils.rs:119): the `map` field is kept in
sync with `list` in the source, so only the insertion-ordered `list` is kept. -/
structure OHMap (α : Type) where
  list : List α
deriving DecidableEq

/-- `OrderedHashMap::new`. -/
def OHMap.emptyM {α : Type} : OHMap α := ⟨[]⟩

/-- `OrderedHashMap::contains_key` (via the `map` field in the source). -/
def OHMap.containsKey [Named α] (m : OHMap α) (k : Chars) : Bool :=
  m.list.any (fun x => Named.getName x = k)

/-- `OrderedHashMap::append` (src/utils.rs:133). -/
def OHMap.append [Named α] (m : OHMap α) (v : α) : Except Chars (OHMap α) :=
  let keyName := Named.getName v
  if keyName.isEmpty then .error (strC "Empty")
  else if m.containsKey keyName then .error (strC "Duplicate " ++ keyName)
  else .ok ⟨m.list ++ [v]⟩

/-- `let _ = m.append(v);` — an append whose error is discarded. -/
def OHMap.appendIgnore [Named α] (m : OHMap α) (v : α) : OHMap α :=
  match m.append v with
  | .ok m2 => m2
  | .error _ => m

/-- `OrderedHashMap::get` (src/utils.rs:146). -/
def OHMap.get [Named α] (m : OHMap α) (k : Chars) : Option α :=
  m.list.find? (fun x => Named.getName x = k)

/-- `get_mut` followed by overwriting the entry. -/
def OHMap.setAt [Named α] (m : OHMap α) (k : Chars) (v : α) : OHMap α :=
  ⟨m.list.map (fun x => if Named.getName x = k then v else x)⟩

/-- `OrderedHashMap::len`. -/
def OHMap.lenM {α : Type} (m : OHMap α) : Nat := m.list.length

/-- Rust `HashMap<String, T>`, as an association list in insertion order. -/
structure HMap (α : Type) where
  entries : List (Chars × α)
deriving DecidableEq

/-- The empty `HashMap`. -/
def HMap.emptyH {α : Type} : HMap α := ⟨[]⟩

/-- `HashMap::get`. -/
def HMap.get {α : Type} (m : HMap α) (k : Chars) : Option α :=
  (m.entries.find? (fun kv => kv.1 = k)).map (·.2)

/-- `HashMap::contains_key`. -/
def HMap.containsKey {α : Type} (m : HMap α) (k : Chars) : Bool :=
  m.entries.any (fun kv => kv.1 = k)

/-- `HashMap::insert`: replace in place, or add at the end. -/
def HMap.insert {α : Type} (m : HMap α) (k : Chars) (v : α) : HMap α :=
  if m.containsKey k then ⟨m.entries.map (fun kv => if kv.1 = k then (k, v) else kv)⟩
  else ⟨m.entries ++ [(k, v)]⟩

/-- `HashMap::remove`. -/
def HMap.removeK {α : Type} (m : HMap α) (k : Chars) : HMap α :=
  ⟨m.entries.filter (fun kv => ¬ kv.1 = k)⟩

/-- `HashMap::len` / `is_empty`. -/
def HMap.lenH {α : Type} (m : HMap α) : Nat := m.entries.length

/-- Rust `HashSet<String>`, as a de-duplicating list in insertion order. -/
structure HSet where
  entries : List Chars
deriving DecidableEq

/-- `HashSet::insert`. -/
def HSet.insert (s : HSet) (x : Chars) : HSet :=
  if x ∈ s.entries then s else ⟨s.entries ++ [x]⟩

/-- `HashSet::contains`. -/
def HSet.containsE (s : HSet) (x : Chars) : Bool := x ∈ s.entries

/-- Rust `column::ForeignKey` (src/column.rs:88). -/
structure ForeignKey where
  references : Chars
  sql : Chars
deriving DecidableEq

/-- Rust `column::Constr` (src/column.rs:79). -/
structure Constr where
  primaryKey : Option Bool
  nullable : Bool
  foreignKey : Option ForeignKey
deriving DecidableEq

/-- Rust `column::Index` (src/column.rs:52); `usingMethod` embeds the field `using`. -/
structure Index where
  name : Chars
  unique : Option Bool
  concurrently : Option Bool
  usingMethod : Chars
  order : Chars
  nulls : Chars
  collate : Chars
  sql : Chars
deriving DecidableEq

/-- `Index::default` (src/column.rs:286): `"+"` asks for an auto-generated name. -/
def Index.defaultI : Index :=
  { name := strC "+", unique := none, concurrently := none, usingMethod := [],
    order := [], nulls := [], collate := [], sql := [] }

/-- `Index::new` (src/column.rs:301): `None` when the `name` field is empty. -/
def Index.new (input : Yaml) : Option Index :=
  let name := asStrEsc input "name"
  if name.isEmpty then none
  else
    let uniqueVal := asBool input "unique" false
    let concurrentlyVal := asBool input "concurrently" false
    some { name,
           unique := if uniqueVal then some true else none,
           concurrently := if concurrentlyVal then some true else none,
           usingMethod := lowerChars (asStrEsc input "using"),
           order := upperChars (asStrEsc input "order"),
           nulls := upperChars (asStrEsc input "nulls"),
           collate := asStrEsc input "collate",
           sql := asStrEsc input "sql" }

/-- Rust `column::Column` (src/column.rs:34).  `partitionBy` is the field the
table planner reads (src/table.rs:247); the column parser never sets it. -/
structure Column where
  name : Chars
  columnType : Chars
  defaultValue : Option Chars
  constraint : Option Constr
  description : Chars
  sql : Chars
  index : Option Index
  partitionBy : Option Chars
deriving DecidableEq

instance : Named Column := ⟨Column.name⟩

/-- `Column::new` (src/column.rs:107). -/
def Column.new (input : Yaml) : Column :=
  let constraintY := input.get "constraint"
  let foreignKeyY := constraintY.get "foreignKey"
  let references := asStrEsc foreignKeyY "references"
  let fkPair : Option ForeignKey × Bool :=
    if references.isEmpty then (none, false)
    else (some ⟨references, asStrEsc foreignKeyY "sql"⟩, true)
  let primaryKey := asBool constraintY "primaryKey" false
  let nullable := asBool constraintY "nullable" true
  let constraint : Option Constr :=
    if primaryKey || !nullable || fkPair.2 then
      some ⟨if primaryKey then some true else none, nullable, fkPair.1⟩
    else none
  let indexY := input.get "index"
  let index : Option Index :=
    if indexY.isNull then none
    else
      match indexY.asBoolO with
      | some b => if b then some Index.defaultI else none
      | none => Index.new indexY
  { name := safeSqlName (asStrEsc input "name"),
    columnType := asStrEsc input "type",
    defaultValue := ((input.get "defaultValue").asStrO).map asEsc,
    description := asStrEsc input "description",
    sql := asStrEsc input "sql",
    constraint, index,
    partitionBy := none }

/-- `Column::is_pk` (src/column.rs:183). -/
def Column.isPk (c : Column) : Bool :=
  match c.constraint with
  | none => false
  | some cs => cs.primaryKey.getD false

/-- Rust `column::Trig` (src/column.rs:96). -/
structure Trig where
  name : Chars
  event : Chars
  whenC : Chars
  proc : Chars
deriving DecidableEq

instance : Named Trig := ⟨Trig.name⟩

/-- `Trig::new` (src/column.rs:221). -/
def Trig.new (input : Yaml) : Trig :=
  { name := safeSqlName (asStrEsc input "name"),
    event := asStrEsc input "event",
    whenC := asStrEsc input "when",
    proc := asStrEsc input "proc" }

/-- `Trig::trig_def` (src/column.rs:232). -/
def Trig.trigDef (t : Trig) (schema tableName : Chars) : Option Chars :=
  if t.proc.isEmpty then none
  else
    some (strC "CREATE TRIGGER " ++ t.name ++ strC " " ++ t.event ++ strC " ON "
      ++ schema ++ strC "." ++ tableName ++ strC " " ++ t.whenC
      ++ strC " EXECUTE PROCEDURE " ++ t.proc ++ strC ";")

/-- Rust `loader::PgTrigger` (src/loader.rs:129). -/
structure PgTrigger where
  triggerName : Chars
  event : Chars
  orientation : Chars
  proc : Chars
deriving DecidableEq

/-- `Trig::to_pg_trigger` (src/column.rs:245). -/
def Trig.toPgTrigger (t : Trig) : PgTrigger :=
  { triggerName := t.name, event := upperChars t.event,
    orientation := upperChars t.whenC, proc := t.proc }

/-- `Trig::matches_pg_trigger` (src/column.rs:255). -/
def Trig.matchesPgTrigger (t : Trig) (existing : PgTrigger) : Bool :=
  let selfEvent := upperChars t.event
  let selfWhen := upperChars t.whenC
  if ¬ selfEvent = existing.event then false
  else if ¬ selfWhen = existing.orientation then false
  else
    let selfProc := trimChars t.proc
    let existingProc := trimChars existing.proc
    if selfProc.any (· == '.') then selfProc = existingProc
    else selfProc.isSuffixOf existingProc || existingProc = selfProc

/-- Rust `loader::PgColumnDfn` (src/loader.rs:86). -/
structure PgColumnDfn where
  columnName : Chars
  columnType : Chars
  columnDefault : Option Chars
  sql : Option Chars
  fk : Option (Chars × Chars)
  pk : Bool
  nullable : Bool
  sortOrder : Nat
  columnComment : Option Chars
deriving DecidableEq

/-- `PgColumnDfn::def` (src/loader.rs:172). -/
def PgColumnDfn.defSql (c : PgColumnDfn) (ignorePk : Bool) : Chars :=
  let sql := c.columnName ++ strC " " ++ c.columnType
  let sql := if c.pk && !ignorePk then sql ++ strC " primary key" else sql
  let sql := if !c.nullable then sql ++ strC " not null" else sql
  let sql :=
    match c.columnDefault with
    | some d => if d.isEmpty then sql else sql ++ strC " default " ++ d
    | none => sql
  match c.sql with
  | some s => if s.isEmpty then sql else sql ++ strC " " ++ s
  | none => sql

/-- `Column::column_def` (src/column.rs:191). -/
def Column.columnDef (c : Column) (schema tableName file : Chars) : Except Chars PgColumnDfn :=
  if c.columnType.isEmpty then
    .error (strC "Error column definition on table: " ++ schema ++ strC "." ++ tableName
      ++ strC " column " ++ c.name ++ strC " file " ++ file)
  else
    .ok { columnName := c.name,
          columnType := c.columnType,
          columnDefault := c.defaultValue,
          sql := some (trimChars c.sql),
          pk := (c.constraint.map (fun cs => cs.primaryKey.getD false)).getD false,
          nullable := (c.constraint.map (·.nullable)).getD true,
          fk := c.constraint.bind (fun cs =>
            cs.foreignKey.map (fun fk => (trimChars fk.references, trimChars fk.sql))),
          sortOrder := 0,
          columnComment := none }

/-- Rust `loader::FKTable` (src/loader.rs:101). -/
structure FKTable where
  schema : Chars
  table : Chars
  column : HSet
  name : Chars
  sql : Chars
deriving DecidableEq

/-- `FKTable::columns` (src/loader.rs:145). -/
def FKTable.columnsStr (f : FKTable) : Chars :=
  f.column.entries.foldl (fun cs c => if cs.isEmpty then c else cs ++ strC ", " ++ c) []

/-- Rust `loader::PgIndexColumn` (src/loader.rs:111). -/
structure PgIndexColumn where
  columnName : Chars
  order : Chars
  nulls : Chars
  collation : Chars
deriving DecidableEq

/-- Rust `loader::PgIndex` (src/loader.rs:120). -/
structure PgIndex where
  indexName : Chars
  columns : List PgIndexColumn
  isUnique : Bool
  indexMethod : Chars
deriving DecidableEq

/-- Rust `loader::PgGrant` (src/loader.rs:138). -/
structure PgGrant where
  grantee : Chars
  privileges : HSet
  withGrantOption : Bool
deriving DecidableEq

/-- Rust `loader::PgPrimaryKey` (src/loader.rs:61). -/
structure PgPrimaryKey where
  constraintName : Chars
  columns : List Chars
deriving DecidableEq

/-- Rust `loader::PgTable` (src/loader.rs:40). -/
structure PgTable where
  tableName : Chars
  columns : HMap PgColumnDfn
  fks : HMap FKTable
  triggers : HMap PgTrigger
  indexes : HMap PgIndex
  grants : HMap PgGrant
  primaryKey : Option PgPrimaryKey
  sortOrder : Nat
  tableComment : Option Chars
  owner : Option Chars
deriving DecidableEq

/-- `PgTable::pks` (src/loader.rs:796): a ready `, PRIMARY KEY (…) ` piece when at
least two live columns are primary-key columns, else `None`. -/
def PgTable.pks (t : PgTable) : Option Chars :=
  let acc := t.columns.entries.foldl
    (fun (acc : Chars × Nat) kv =>
      if kv.2.pk then
        let cnt := acc.2 + 1
        ((if cnt > 1 then acc.1 ++ strC ", " else acc.1) ++ kv.2.columnName, cnt)
      else acc)
    (strC ", PRIMARY KEY (", 0)
  if acc.2 > 1 then some (acc.1 ++ strC ") ") else none

/-- Rust `loader::InfoSchemaType`: the LiveModel, schema name → table name → table. -/
abbrev Dbc := HMap (HMap PgTable)

/-- Rust `table::YGrant` (src/table.rs:63); `grantedBy` embeds the field `by`. -/
structure YGrant where
  allG : Chars
  selectG : Chars
  insertG : Chars
  updateG : Chars
  deleteG : Chars
  truncateG : Chars
  referencesG : Chars
  triggerG : Chars
  createG : Chars
  connectG : Chars
  temporaryG : Chars
  executeG : Chars
  usageG : Chars
  withGrantOption : Bool
  grantedBy : Chars
deriving DecidableEq

/-- `YGrant::new` (src/table.rs:967), over the `grant` array of a table. -/
def YGrant.newList (input : Yaml) : List YGrant :=
  match input.asVecO with
  | none => []
  | some vv =>
    vv.map fun v =>
      { allG := safeSqlName (asStrEsc v "all"),
        selectG := safeSqlName (asStrEsc v "select"),
        insertG := safeSqlName (asStrEsc v "insert"),
        updateG := safeSqlName (asStrEsc v "update"),
        deleteG := safeSqlName (asStrEsc v "delete"),
        truncateG := safeSqlName (asStrEsc v "truncate"),
        referencesG := safeSqlName (asStrEsc v "references"),
        triggerG := safeSqlName (asStrEsc v "trigger"),
        createG := safeSqlName (asStrEsc v "create"),
        connectG := safeSqlName (asStrEsc v "connect"),
        temporaryG := safeSqlName (asStrEsc v "temporary"),
        executeG := safeSqlName (asStrEsc v "execute"),
        usageG := safeSqlName (asStrEsc v "usage"),
        withGrantOption := asBool v "with_grant_option" false,
        grantedBy := safeSqlName (asStrEsc v "by") }

/-- Rust `table::Table` (src/table.rs:19). -/
structure Table where
  tableName : Chars
  description : Chars
  transaction : Chars
  sql : Chars
  constraint : Chars
  columns : OHMap Column
  triggers : OHMap Trig
  dataFile : Option Chars
  data : List (List Chars)
  owner : Chars
  grant : List YGrant
  isTemplate : Option Bool
  useTemplates : List Chars
deriving DecidableEq

instance : Named Table := ⟨Table.tableName⟩

/-- `Table::default` (src/table.rs:160). -/
def Table.defaultT : Table :=
  { tableName := [], description := [], transaction := [], sql := [], constraint := [],
    columns := OHMap.emptyM, triggers := OHMap.emptyM, dataFile := none, data := [],
    owner := [], grant := [], isTemplate := none, useTemplates := [] }

/-- `Table::is_template` (src/table.rs:888). -/
def Table.isTemplateB (t : Table) : Bool := t.isTemplate.getD false

/-- `Table::get_primary_key_columns` (src/table.rs:958). -/
def Table.getPrimaryKeyColumns (t : Table) : List Chars :=
  (t.columns.list.filter (·.isPk)).map (·.name)

/-- `Table::is_table_transaction` (src/table.rs:882). -/
def Table.isTableTransaction (t : Table) : Bool :=
  t.transaction = strC "table" || t.transaction = strC "retry"

/-- The `, found in file: {f}` tail of the `Table::new` error messages. -/
def fileNote (file : Option Chars) : Chars :=
  match file with
  | none => []
  | some f => strC ", found in file: " ++ f

/-- The columns loop of `Table::new` (src/table.rs:187). -/
def tableNewColumns (cls : List Yaml) (tableName : Chars) (file : Option Chars) :
    Except Chars (OHMap Column) := do
  let st ← cls.foldlM
    (fun (st : OHMap Column × Nat) cl => do
      let c := cl.get "column"
      if ¬ c.isNull then
        match (c.get "name").asStrO with
        | some _ =>
          let yc := Column.new c
          match st.1.append yc with
          | .ok cols => pure (cols, st.2 + 1)
          | .error e =>
            .error (e ++ strC " (column name) " ++ natRepr st.2 ++ strC "/"
              ++ natRepr cls.length ++ strC " on table: " ++ tableName ++ fileNote file)
        | none => pure (st.1, st.2 + 1)
      else pure st)
    (OHMap.emptyM, 1)
  pure st.1

/-- The triggers loop of `Table::new` (src/table.rs:217). -/
def tableNewTriggers (trs : List Yaml) (tableName : Chars) (file : Option Chars) :
    Except Chars (OHMap Trig) :=
  trs.foldlM
    (fun (triggers : OHMap Trig) tr => do
      let t := tr.get "trigger"
      if ¬ t.isNull then
        match (t.get "name").asStrO with
        | some name =>
          if name.length > 0 then
            match triggers.append (Trig.new t) with
            | .ok trigs => pure trigs
            | .error _ =>
              .error (strC "Duplicate trigger name: " ++ name ++ strC " on table: "
                ++ tableName ++ fileNote file)
          else pure triggers
        | none => pure triggers
      else pure triggers)
    OHMap.emptyM

/-- The `partition_by` validation loop of `Table::new` (src/table.rs:245). -/
def tableValidatePartitions (columns : OHMap Column) (tableName : Chars) (file : Option Chars) :
    Except Chars (OHMap Column) := do
  let st ← columns.list.foldlM
    (fun (st : List Column × Nat) col => do
      match col.partitionBy with
      | none => pure (st.1 ++ [col], st.2)
      | some pv =>
        if ¬ (pv = strC "RANGE" ∨ pv = strC "LIST" ∨ pv = strC "HASH") then
          .error (strC "Invalid partition_by value '" ++ pv ++ strC "' on column '" ++ col.name
            ++ strC "' in table '" ++ tableName
            ++ strC "'. Expected one of: RANGE, LIST, HASH" ++ fileNote file)
        else
          let cnt := st.2 + 1
          if cnt > 1 then
            .error (strC "Only one column can have partition_by on table '" ++ tableName
              ++ strC "'. Found multiple columns with partition_by" ++ fileNote file)
          else
            let col := if col.index = none then { col with index := some Index.defaultI } else col
            pure (st.1 ++ [col], cnt))
    ([], 0)
  pure ⟨st.1⟩

/-- `Table::new` (src/table.rs:181). -/
def Table.new (input : Yaml) (tableName : Chars) (file : Option Chars) : Except Chars Table :=
  (match (input.get "columns").asVecO with
   | some cls => tableNewColumns cls tableName file
   | none => .ok OHMap.emptyM) >>= fun columns0 =>
  (match (input.get "triggers").asVecO with
   | some trs => tableNewTriggers trs tableName file
   | none => .ok OHMap.emptyM) >>= fun triggers =>
  tableValidatePartitions columns0 tableName file >>= fun columns =>
  let etl := input.get "data_file"
  let templateField := input.get "template"
  let tpl : Option Bool × List Chars :=
    if templateField.isNull then (none, [])
    else
      match templateField.asBoolO with
      | some b => (some b, [])
      | none =>
        match templateField.asVecO with
        | some arr => (none, arr.filterMap (·.asStrO))
        | none => (none, [])
  .ok { tableName := tableName,
        description := asStr input "description" [],
        transaction := asStr input "transaction" [],
        sql := asStrEsc input "sql",
        constraint := asStrEsc input "constraint",
        columns := columns, triggers := triggers,
        dataFile := if etl.isNull then none else etl.asStrO,
        data := asVec input "data",
        owner := asStr input "owner" [],
        grant := YGrant.newList (input.get "grant"),
        isTemplate := tpl.1,
        useTemplates := tpl.2 }

/-- `Table::merge_from` (src/table.rs:894): template entries first, same-named
entries overridden in place by the consuming table, scalars inherited only when
the consuming table left them empty. -/
def Table.mergeFrom (self : Table) (template : Table) : Table :=
  let mergedColumns := template.columns.list.foldl OHMap.appendIgnore OHMap.emptyM
  let mergedColumns := self.columns.list.foldl
    (fun (m : OHMap Column) col =>
      if m.containsKey col.name then m.setAt col.name col else m.appendIgnore col)
    mergedColumns
  let mergedTriggers := template.triggers.list.foldl OHMap.appendIgnore OHMap.emptyM
  let mergedTriggers := self.triggers.list.foldl
    (fun (m : OHMap Trig) trig =>
      if m.containsKey trig.name then m.setAt trig.name trig else m.appendIgnore trig)
    mergedTriggers
  { self with
    columns := mergedColumns,
    triggers := mergedTriggers,
    grant := template.grant ++ self.grant,
    owner := if self.owner.isEmpty ∧ ¬ template.owner.isEmpty then template.owner else self.owner,
    description := if self.description.isEmpty ∧ ¬ template.description.isEmpty then
      template.description else self.description,
    sql := if self.sql.isEmpty ∧ ¬ template.sql.isEmpty then template.sql else self.sql,
    constraint := if self.constraint.isEmpty ∧ ¬ template.constraint.isEmpty then
      template.constraint else self.constraint }

/-- Rust `schema::Schema` (src/schema.rs:11). -/
structure Schema where
  schemaName : Chars
  owner : Chars
  tables : OHMap Table
  file : Chars
deriving DecidableEq

instance : Named Schema := ⟨Schema.schemaName⟩

/-- `Schema::schema_name` (src/schema.rs:42): missing `schemaName` means `public`. -/
def Schema.schemaNameOf (input : Yaml) : Chars :=
  match (input.get "schemaName").asStrO with
  | none => strC "public"
  | some s => s

/-- `Schema::new` (src/schema.rs:50).  The `owner` field is read from the
`schemaName` key, exactly as the source does. -/
def Schema.new (input : Yaml) (file : Chars) : Schema :=
  { schemaName := Schema.schemaNameOf input,
    owner := asStr input "schemaName" [],
    tables := OHMap.emptyM,
    file }

/-- `Schema::append` (src/schema.rs:60): add every `tables[*].table` entry. -/
def Schema.append (self : Schema) (input : Yaml) : Except Chars Schema :=
  match (input.get "tables").asVecO with
  | none => .ok self
  | some tbls =>
    tbls.foldlM
      (fun (self : Schema) t => do
        let t := t.get "table"
        match (t.get "tableName").asStrO with
        | none => .error (strC "no table name set in file: " ++ self.file)
        | some tn =>
          if self.tables.containsKey tn then
            .error (strC "duplicate table definition: " ++ tn
              ++ strC " found in file: " ++ self.file)
          else do
            let tbl ← Table.new t tn (some self.file)
            pure { self with tables := self.tables.appendIgnore tbl })
      self

/-- `Schema::resolve_templates` (src/schema.rs:129). -/
def Schema.resolveTemplates (self : Schema) (allSchemas : OHMap Schema) : Except Chars Schema :=
  let tableNames := (self.tables.list.filter (fun t => ¬ t.useTemplates.isEmpty)).map (·.tableName)
  tableNames.foldlM
    (fun (self : Schema) tableName => do
      match self.tables.get tableName with
      | none => pure self
      | some t =>
        let templatesToMerge ← t.useTemplates.foldlM
          (fun (acc : List Table) templateRef => do
            let split :=
              if templateRef.any (· == '.') then splitAtFirst '.' templateRef
              else (self.schemaName, templateRef)
            let templateSchema := split.1
            let templateTable := split.2
            let template :=
              if templateSchema = self.schemaName then self.tables.get templateTable
              else (allSchemas.get templateSchema).bind (fun s => s.tables.get templateTable)
            match template with
            | some tl =>
              if ¬ tl.isTemplateB then
                .error (strC "Table " ++ self.schemaName ++ strC "." ++ tableName
                  ++ strC " references '" ++ templateRef
                  ++ strC "' as template, but it is not marked as template: true")
              else pure (acc ++ [tl])
            | none =>
              .error (strC "Table " ++ self.schemaName ++ strC "." ++ tableName
                ++ strC " references template '" ++ templateRef
                ++ strC "' which does not exist"))
          []
        match self.tables.get tableName with
        | none => pure self
        | some table =>
          let merged := templatesToMerge.foldl Table.mergeFrom table
          pure { self with tables := self.tables.setAt tableName merged })
    self

/-- Rust `MigrationOptions` (src/lib.rs:62).  `lib.rs` declares the five gate
knobs; the table planner additionally reads `with_ddl_retry` and
`exclude_triggers`, the two extra option keys of spec §6. -/
structure MigrationOptions where
  withSizeCut : Bool
  withIndexDrop : Bool
  withTriggerDrop : Bool
  withRevoke : Bool
  withoutFailfast : Bool
  withDdlRetry : Bool
  excludeTriggers : Bool
deriving DecidableEq

/-- `MigrationOptions::default`: every knob off. -/
def MigrationOptions.defaultO : MigrationOptions :=
  ⟨false, false, false, false, false, false, false⟩

/-- Errors of a planner run: `err` is a returned `Err(String)`, `crash` a Rust panic. -/
inductive RunErr where
  | err (msg : Chars)
  | crash (msg : Chars)
deriving DecidableEq

/-- Rust constant `RPT1` (src/table.rs:1012): head of the lock-timeout retry block. -/
def RPT1 : Chars := strC "DO\n$do$\nDECLARE\n   lock_timeout CONSTANT text := '1000ms';\n   max_attempts CONSTANT INT := 100;\n   ddl_completed BOOLEAN := FALSE;\nBEGIN\n\n   PERFORM set_config('lock_timeout', lock_timeout, FALSE);\n\n   FOR i IN 1..max_attempts LOOP\n      BEGIN\n         EXECUTE '"

/-- Rust constant `RPT2` (src/table.rs:1026): tail of the lock-timeout retry block. -/
def RPT2 : Chars := strC "';\n         ddl_completed := TRUE;\n         EXIT;\n      EXCEPTION\n         WHEN lock_not_available THEN\n           NULL;\n      END;\n   END LOOP;\n\n   IF ddl_completed THEN\n      RAISE INFO 'DDL has been successfully completed';\n   ELSE\n      RAISE EXCEPTION 'Failed to perform DDL';\n   END IF;\nEND\n$do$;\n"

/-- Rust `append` (src/table.rs:1001): add one statement, retry-wrapped on demand. -/
def appendSt (sql : Chars) (buff : Chars) (retry : Bool) : Chars :=
  if retry then buff ++ RPT1 ++ sql ++ RPT2
  else buff ++ sql ++ strC ";\n"

/-- Rust `str::rfind(c: char)`. -/
def rfindChar (c : Char) (s : Chars) : Option Nat :=
  (findCharIdx c s.reverse).map (fun j => s.length - 1 - j)

/-- Rust `String::remove(idx)` (drops the character at `idx`). -/
def removeAt (s : Chars) (i : Nat) : Chars := s.take i ++ s.drop (i + 1)

/-- Rust `index::DesiredIndexColumn` (src/index.rs:20). -/
structure DesiredIndexColumn where
  columnName : Chars
  order : Chars
  nulls : Chars
  collate : Chars
deriving DecidableEq

/-- Rust `index::DesiredIndex` (src/index.rs:10). -/
structure DesiredIndex where
  name : Chars
  columns : List DesiredIndexColumn
  isUnique : Bool
  concurrently : Bool
  usingMethod : Chars
deriving DecidableEq

/-- `IndexBuilder::new` (src/index.rs:35): group the declared indexes by name. -/
def IndexBuilder.new (columns : OHMap Column) : HMap DesiredIndex :=
  columns.list.foldl
    (fun (groups : HMap DesiredIndex) col =>
      match col.index with
      | none => groups
      | some idx =>
        if idx.name.isEmpty then groups
        else
          let colInfo : DesiredIndexColumn := ⟨col.name, idx.order, idx.nulls, idx.collate⟩
          match groups.get idx.name with
          | some existing =>
            groups.insert idx.name { existing with columns := existing.columns ++ [colInfo] }
          | none =>
            groups.insert idx.name
              ⟨idx.name, [colInfo],
               idx.unique.getD false || containsSub (strC "UNIQUE") (upperChars idx.sql),
               idx.concurrently.getD false, idx.usingMethod⟩)
    HMap.emptyH

/-- `IndexBuilder::index_matches` (src/index.rs:160). -/
def indexMatches (desired : DesiredIndex) (existing : PgIndex) : Bool :=
  if ¬ desired.isUnique = existing.isUnique then false
  else
    let desiredMethod := if desired.usingMethod.isEmpty then strC "btree" else desired.usingMethod
    if ¬ desiredMethod = existing.indexMethod then false
    else if ¬ desired.columns.length = existing.columns.length then false
    else
      (List.zip desired.columns existing.columns).all fun pr =>
        let dc := pr.1
        let ec := pr.2
        let desiredOrder := if dc.order.isEmpty then strC "ASC" else dc.order
        let defaultNulls := if desiredOrder = strC "DESC" then strC "FIRST" else strC "LAST"
        let desiredNulls := if dc.nulls.isEmpty then defaultNulls else dc.nulls
        dc.columnName = ec.columnName ∧ desiredOrder = ec.order
          ∧ desiredNulls = ec.nulls ∧ dc.collate = ec.collation

/-- `IndexBuilder::build_create_index_sql` (src/index.rs:208). -/
def buildCreateIndexSql (schema tableName indexName : Chars) (desired : DesiredIndex) : Chars :=
  let sql := strC "CREATE "
  let sql := if desired.isUnique then sql ++ strC "UNIQUE " else sql
  let sql := sql ++ strC "INDEX "
  let sql := if desired.concurrently then sql ++ strC "CONCURRENTLY " else sql
  let sql := sql ++ strC "IF NOT EXISTS " ++ indexName ++ strC " ON " ++ schema ++ strC "."
    ++ tableName
  let sql := if ¬ desired.usingMethod.isEmpty then sql ++ strC " USING " ++ desired.usingMethod
    else sql
  let colDefs := desired.columns.map fun c =>
    let colSql := c.columnName
    let colSql := if ¬ c.collate.isEmpty then colSql ++ strC " COLLATE " ++ c.collate else colSql
    let colSql := if ¬ c.order.isEmpty then colSql ++ strC " " ++ c.order else colSql
    if ¬ c.nulls.isEmpty then colSql ++ strC " NULLS " ++ c.nulls else colSql
  sql ++ strC " (" ++ joinComma colDefs ++ strC ");\n"

/-- `IndexBuilder::update_dbc` (src/index.rs:279): mirror the created index. -/
def updateDbcIndex (schema tableName indexName : Chars) (desired : DesiredIndex) (dbc : Dbc) :
    Dbc :=
  match dbc.get schema with
  | none => dbc
  | some ss =>
    match ss.get tableName with
    | none => dbc
    | some ts =>
      let columns := desired.columns.map fun c =>
        let order := if c.order.isEmpty then strC "ASC" else c.order
        let defaultNulls := if order = strC "DESC" then strC "FIRST" else strC "LAST"
        PgIndexColumn.mk c.columnName order
          (if c.nulls.isEmpty then defaultNulls else c.nulls) c.collate
      let idx : PgIndex :=
        ⟨indexName, columns, desired.isUnique,
         if desired.usingMethod.isEmpty then strC "btree" else desired.usingMethod⟩
      dbc.insert schema (ss.insert tableName { ts with indexes := ts.indexes.insert indexName idx })

/-- One iteration of the loop of `IndexBuilder::generate_sql` (src/index.rs:97):
the state is (indexes_sql, skipped_sql, dbc). -/
def indexStep (schema tableName : Chars) (existingIndexes : HMap PgIndex)
    (opt : MigrationOptions) (acc : Chars × Chars × Dbc) (kv : Chars × DesiredIndex) :
    Except Chars (Chars × Chars × Dbc) :=
  let indexesSql := acc.1
  let skippedSql := acc.2.1
  let dbc := acc.2.2
  let idxName := kv.1
  let desired := kv.2
  let actualIndexName :=
    if idxName = strC "+" ∨ idxName.isEmpty then
      strC "idx_" ++ tableName ++ strC "_"
        ++ List.intercalate (strC "_") (desired.columns.map (·.columnName))
    else idxName
  let create : Chars × Chars × Dbc → Except Chars (Chars × Chars × Dbc) := fun st =>
    let createIdx := buildCreateIndexSql schema tableName actualIndexName desired
    .ok (st.1 ++ createIdx, st.2.1, updateDbcIndex schema tableName actualIndexName desired st.2.2)
  match existingIndexes.get actualIndexName with
  | some existing =>
    if indexMatches desired existing then .ok (indexesSql, skippedSql, dbc)
    else
      let dropSql := strC "DROP INDEX IF EXISTS " ++ schema ++ strC "." ++ actualIndexName
        ++ strC ";"
      if opt.withIndexDrop then
        create (indexesSql ++ dropSql ++ strC "\n", skippedSql, dbc)
      else
        let createSql := buildCreateIndexSql schema tableName actualIndexName desired
        if opt.withoutFailfast then
          create (indexesSql,
            skippedSql ++ strC "-- SKIPPED (with_index_drop=false):\n-- " ++ dropSql
              ++ strC "\n-- " ++ trimChars createSql ++ strC "\n",
            dbc)
        else
          .error (strC "Index " ++ actualIndexName ++ strC " on " ++ schema ++ strC "."
            ++ tableName
            ++ strC " has changed but without_failfast is enabled. SQL would be:\n"
            ++ dropSql ++ strC "\n" ++ trimChars createSql)
  | none => create (indexesSql, skippedSql, dbc)

/-- `IndexBuilder::generate_sql` (src/index.rs:76): returns the emitted batch, the
skipped-log (bound for stderr) and the mirrored LiveModel. -/
def generateIndexSql (groups : HMap DesiredIndex) (schema tableName : Chars) (dbc : Dbc)
    (opt : MigrationOptions) : Except Chars (Chars × Chars × Dbc) :=
  let existingIndexes : HMap PgIndex :=
    match dbc.get schema with
    | some ss =>
      match ss.get tableName with
      | some ts => ts.indexes
      | none => HMap.emptyH
    | none => HMap.emptyH
  groups.entries.foldlM (indexStep schema tableName existingIndexes opt) ([], [], dbc)

/-- The desired-grants accumulation of `GrantBuilder::generate_sql` (src/grant.rs:44). -/
def buildDesiredGrants (grants : List YGrant) : HMap HSet × HMap Bool :=
  grants.foldl
    (fun (acc : HMap HSet × HMap Bool) yg =>
      let privileges : List (Chars × Chars) :=
        [(strC "all", yg.allG), (strC "SELECT", yg.selectG), (strC "INSERT", yg.insertG),
         (strC "UPDATE", yg.updateG), (strC "DELETE", yg.deleteG),
         (strC "TRUNCATE", yg.truncateG), (strC "REFERENCES", yg.referencesG),
         (strC "TRIGGER", yg.triggerG)]
      privileges.foldl
        (fun (acc2 : HMap HSet × HMap Bool) pv =>
          let privName := pv.1
          let grantee := pv.2
          if grantee.isEmpty then acc2
          else
            let entry := (acc2.1.get grantee).getD ⟨[]⟩
            let entry :=
              if privName = strC "all" then
                (((((((entry.insert (strC "SELECT")).insert (strC "INSERT")).insert
                  (strC "UPDATE")).insert (strC "DELETE")).insert (strC "TRUNCATE")).insert
                  (strC "REFERENCES")).insert (strC "TRIGGER"))
              else entry.insert privName
            let desired := acc2.1.insert grantee entry
            let opts := if yg.withGrantOption then acc2.2.insert grantee true else acc2.2
            (desired, opts))
        acc)
    (HMap.emptyH, HMap.emptyH)

/-- One iteration of the first loop of `GrantBuilder::generate_sql` (src/grant.rs:83). -/
def grantStep (schema tableName : Chars) (existingGrants : HMap PgGrant)
    (grantOptions : HMap Bool) (opt : MigrationOptions) (acc : Chars × Chars × Dbc)
    (kv : Chars × HSet) : Except Chars (Chars × Chars × Dbc) := do
  let grantee := kv.1
  let desiredPrivs := kv.2
  let existing := existingGrants.get grantee
  let privsToGrant : List Chars :=
    match existing with
    | none => desiredPrivs.entries
    | some ex => desiredPrivs.entries.filter (fun p => ¬ ex.privileges.containsE p)
  let privsToRevoke : List Chars :=
    match existing with
    | none => []
    | some ex => ex.privileges.entries.filter (fun p => ¬ desiredPrivs.containsE p)
  let (grantsSql, skippedSql, dbc) := acc
  let (grantsSql, skippedSql) ←
    if ¬ privsToRevoke.isEmpty then
      let revokeStmt := strC "REVOKE " ++ joinComma privsToRevoke ++ strC " ON " ++ schema
        ++ strC "." ++ tableName ++ strC " FROM " ++ grantee ++ strC ";\n"
      if opt.withRevoke then pure (grantsSql ++ revokeStmt, skippedSql)
      else if opt.withoutFailfast then
        pure (grantsSql, skippedSql ++ strC "-- SKIPPED (with_revoke=false): "
          ++ trimChars revokeStmt ++ strC "\n")
      else
        .error (strC "Grant changes detected for " ++ grantee ++ strC " on " ++ schema
          ++ strC "." ++ tableName ++ strC " but without_failfast is enabled. SQL: "
          ++ trimChars revokeStmt)
    else pure (grantsSql, skippedSql)
  let grantsSql :=
    if ¬ privsToGrant.isEmpty then
      let withGrant := if (grantOptions.get grantee).getD false then strC " WITH GRANT OPTION"
        else []
      grantsSql ++ strC "GRANT " ++ joinComma privsToGrant ++ strC " ON " ++ schema ++ strC "."
        ++ tableName ++ strC " TO " ++ grantee ++ withGrant ++ strC ";\n"
    else grantsSql
  let dbc :=
    if opt.withRevoke || privsToRevoke.isEmpty then
      match dbc.get schema with
      | none => dbc
      | some ss =>
        match ss.get tableName with
        | none => dbc
        | some ts =>
          dbc.insert schema (ss.insert tableName
            { ts with grants := ts.grants.insert grantee
                          ⟨grantee, desiredPrivs, (grantOptions.get grantee).getD false⟩ })
    else dbc
  pure (grantsSql, skippedSql, dbc)

/-- One iteration of the second loop of `GrantBuilder::generate_sql` (src/grant.rs:158):
full revoke of grantees absent from the YAML. -/
def grantRemovalStep (schema tableName : Chars) (desiredGrants : HMap HSet)
    (opt : MigrationOptions) (acc : Chars × Chars × Dbc) (kv : Chars × PgGrant) :
    Except Chars (Chars × Chars × Dbc) :=
  let grantee := kv.1
  let existing := kv.2
  let (grantsSql, skippedSql, dbc) := acc
  if desiredGrants.containsKey grantee then .ok acc
  else if existing.privileges.entries.isEmpty then .ok acc
  else
    let revokeStmt := strC "REVOKE " ++ joinComma existing.privileges.entries ++ strC " ON "
      ++ schema ++ strC "." ++ tableName ++ strC " FROM " ++ grantee ++ strC ";\n"
    if opt.withRevoke then
      let dbc :=
        match dbc.get schema with
        | none => dbc
        | some ss =>
          match ss.get tableName with
          | none => dbc
          | some ts =>
            dbc.insert schema (ss.insert tableName
              { ts with grants := ts.grants.removeK grantee })
      .ok (grantsSql ++ revokeStmt, skippedSql, dbc)
    else if opt.withoutFailfast then
      .ok (grantsSql, skippedSql ++ strC "-- SKIPPED (with_revoke=false): "
        ++ trimChars revokeStmt ++ strC "\n", dbc)
    else
      .error (strC "Grant removal detected for " ++ grantee ++ strC " on " ++ schema ++ strC "."
        ++ tableName ++ strC " but without_failfast is enabled. SQL: " ++ trimChars revokeStmt)

/-- `GrantBuilder::generate_sql` (src/grant.rs:23). -/
def generateGrantSql (grants : List YGrant) (tableName schema : Chars) (dbc : Dbc)
    (opt : MigrationOptions) : Except Chars (Chars × Chars × Dbc) := do
  let existingGrants : HMap PgGrant :=
    match dbc.get schema with
    | some ss =>
      match ss.get tableName with
      | some ts => ts.grants
      | none => HMap.emptyH
    | none => HMap.emptyH
  let (desiredGrants, grantOptions) := buildDesiredGrants grants
  let acc ← desiredGrants.entries.foldlM
    (grantStep schema tableName existingGrants grantOptions opt) ([], [], dbc)
  existingGrants.entries.foldlM (grantRemovalStep schema tableName desiredGrants opt) acc

/-- State of the column loop of `Table::deploy` (src/table.rs:335). -/
structure ColState where
  sql : Chars
  skippedColumns : Chars
  ts : PgTable
  exec : Bool
deriving DecidableEq

/-- One iteration of the column loop of `Table::deploy` (src/table.rs:335):
add a missing column, or classify and gate a type change. -/
def deployColumnStep (self : Table) (schema file : Chars) (opt : MigrationOptions)
    (pksAtStart : Option Chars) (st : ColState) (dc : Column) : Except RunErr ColState :=
  if ¬ st.ts.columns.containsKey dc.name then do
    let defn ← (dc.columnDef schema self.tableName file).mapError RunErr.err
    let sql := appendSt (strC "ALTER TABLE " ++ schema ++ strC "." ++ self.tableName
      ++ strC " ADD COLUMN " ++ defn.defSql pksAtStart.isSome) st.sql opt.withDdlRetry
    .ok { st with
          sql := sql
          ts := { st.ts with columns := st.ts.columns.insert dc.name defn }
          exec := true }
  else
    match st.ts.columns.get dc.name with
    | none => .error (.crash (strC "called Option::unwrap on a None value"))
    | some existingCol => do
      let desiredDef ← (dc.columnDef schema self.tableName file).mapError RunErr.err
      let existingType := lowerChars existingCol.columnType
      let desiredType := lowerChars desiredDef.columnType
      if existingType = desiredType then .ok st
      else do
        let typeChange ← (analyzeTypeChange existingType desiredType).mapError RunErr.crash
        let alterCore := strC "ALTER TABLE " ++ schema ++ strC "." ++ self.tableName
          ++ strC " ALTER COLUMN " ++ dc.name ++ strC " TYPE " ++ desiredDef.columnType
        match typeChange with
        | .sizeExtension | .compatible =>
          .ok { st with
                sql := appendSt alterCore st.sql opt.withDdlRetry
                ts := { st.ts with columns := st.ts.columns.insert dc.name desiredDef }
                exec := true }
        | .sizeReduction =>
          if opt.withSizeCut then
            .ok { st with
                  sql := appendSt alterCore st.sql opt.withDdlRetry
                  ts := { st.ts with columns := st.ts.columns.insert dc.name desiredDef }
                  exec := true }
          else if opt.withoutFailfast then
            let skipped := st.skippedColumns
              ++ strC "-- SKIPPED (with_size_cut=false): " ++ alterCore ++ strC ";\n-- Column "
              ++ dc.name ++ strC " type change from " ++ existingType ++ strC " to "
              ++ desiredType ++ strC "\n"
            .ok { st with skippedColumns := skipped }
          else
            .error (.err (strC "Column " ++ dc.name ++ strC " on " ++ schema ++ strC "."
              ++ self.tableName ++ strC " type change from " ++ existingType ++ strC " to "
              ++ desiredType
              ++ strC " requires size reduction but with_size_cut is disabled. SQL: "
              ++ alterCore ++ strC ";"))
        | .incompatible =>
          let alterUsing := alterCore ++ strC " USING " ++ dc.name ++ strC "::"
            ++ desiredDef.columnType
          if opt.withSizeCut then
            .ok { st with
                  sql := appendSt alterUsing st.sql opt.withDdlRetry
                  ts := { st.ts with columns := st.ts.columns.insert dc.name desiredDef }
                  exec := true }
          else if opt.withoutFailfast then
            let skipped := st.skippedColumns
              ++ strC "-- SKIPPED (with_size_cut=false): " ++ alterUsing
              ++ strC ";\n-- Column " ++ dc.name ++ strC " incompatible type change from "
              ++ existingType ++ strC " to " ++ desiredType ++ strC "\n"
            .ok { st with skippedColumns := skipped }
          else
            .error (.err (strC "Column " ++ dc.name ++ strC " on " ++ schema ++ strC "."
              ++ self.tableName ++ strC " has incompatible type change from " ++ existingType
              ++ strC " to " ++ desiredType
              ++ strC " but with_size_cut is disabled. SQL: " ++ alterUsing ++ strC ";"))
        | .noChange => .ok st

/-- State of the trigger loop of `Table::deploy` (src/table.rs:435). -/
structure TrigState where
  sql : Chars
  skippedTriggers : Chars
  ts : PgTable
  exec : Bool
deriving DecidableEq

/-- One iteration of the trigger loop of `Table::deploy` (src/table.rs:435). -/
def deployTriggerStep (self : Table) (schema : Chars) (opt : MigrationOptions)
    (st : TrigState) (dt : Trig) : Except RunErr TrigState :=
  let desiredTrigger := dt.toPgTrigger
  let existingTrigger := st.ts.triggers.get dt.name
  let triggerChanged :=
    match existingTrigger with
    | none => false
    | some ex => ¬ dt.matchesPgTrigger ex
  if ¬ existingTrigger.isSome then
    match dt.trigDef schema self.tableName with
    | some defn =>
      .ok { st with
            sql := st.sql ++ defn ++ strC "\n" ++ strC "\n"
            ts := { st.ts with triggers := st.ts.triggers.insert dt.name desiredTrigger }
            exec := true }
    | none => .ok st
  else if triggerChanged then
    let dropSql := strC "DROP TRIGGER IF EXISTS " ++ dt.name ++ strC " ON " ++ schema
      ++ strC "." ++ self.tableName ++ strC ";"
    let createSql := (dt.trigDef schema self.tableName).getD []
    if opt.withTriggerDrop then
      .ok { st with
            sql := st.sql ++ dropSql ++ strC "\n" ++ createSql ++ strC "\n" ++ strC "\n"
            ts := { st.ts with triggers := st.ts.triggers.insert dt.name desiredTrigger }
            exec := true }
    else if opt.withoutFailfast then
      let skipped := st.skippedTriggers
        ++ strC "-- SKIPPED (with_trigger_drop=false):\n-- " ++ dropSql ++ strC "\n-- "
        ++ createSql ++ strC "\n"
      .ok { st with skippedTriggers := skipped }
    else
      .error (.err (strC "Trigger " ++ dt.name ++ strC " on " ++ schema ++ strC "."
        ++ self.tableName ++ strC " has changed but without_failfast is enabled. SQL would be:\n"
        ++ dropSql ++ strC "\n" ++ createSql))
  else .ok st

/-- State after the primary-key check of `Table::deploy` (src/table.rs:479). -/
structure PkState where
  sql : Chars
  ts : PgTable
  exec : Bool
deriving DecidableEq

/-- The primary-key check of `Table::deploy` (src/table.rs:479). -/
def deployPkStep (self : Table) (schema : Chars) (opt : MigrationOptions) (st : PkState) :
    Except RunErr PkState :=
  let desiredPk := self.getPrimaryKeyColumns
  let existingPk := (st.ts.primaryKey.map (·.columns)).getD []
  if desiredPk = existingPk then .ok st
  else
    let pkConstraintName :=
      (st.ts.primaryKey.map (·.constraintName)).getD (self.tableName ++ strC "_pkey")
    let dropPkSql :=
      if st.ts.primaryKey.isSome then
        strC "ALTER TABLE " ++ schema ++ strC "." ++ self.tableName ++ strC " DROP CONSTRAINT "
          ++ pkConstraintName ++ strC ";"
      else []
    let addPkSql :=
      if ¬ desiredPk.isEmpty then
        strC "ALTER TABLE " ++ schema ++ strC "." ++ self.tableName ++ strC " ADD PRIMARY KEY ("
          ++ joinComma desiredPk ++ strC ");"
      else []
    if opt.withIndexDrop then
      let sql := if ¬ dropPkSql.isEmpty then appendSt dropPkSql st.sql opt.withDdlRetry else st.sql
      let sql := if ¬ addPkSql.isEmpty then appendSt addPkSql sql opt.withDdlRetry else sql
      let newPk : Option PgPrimaryKey :=
        if desiredPk.isEmpty then none
        else some ⟨self.tableName ++ strC "_pkey", desiredPk⟩
      .ok { sql := sql
            ts := { st.ts with primaryKey := newPk }
            exec := true }
    else if opt.withoutFailfast then .ok st
    else
      .error (.err (strC "Primary key on " ++ schema ++ strC "." ++ self.tableName
        ++ strC " has changed from " ++ debugList existingPk ++ strC " to "
        ++ debugList desiredPk ++ strC " but with_index_drop is disabled. SQL would be:\n"
        ++ dropPkSql ++ addPkSql))

/-- `Table::comments` (src/table.rs:775): per-column COMMENT statement. -/
def tableComments (self : Table) (sql : Chars) (schema columnName t : Chars) : Chars :=
  if t.length > 0 then
    sql ++ strC "COMMENT ON COLUMN " ++ schema ++ strC "." ++ self.tableName ++ strC "."
      ++ columnName ++ strC " IS '" ++ t ++ strC "';" ++ strC "\n"
  else sql

/-- The accumulators of `Table::insert` (src/table.rs:736): (names, vals, pks);
indexing `self.columns.list.get(i).unwrap()` panics past the declared columns. -/
def insertRowAux (cols : List Column) (row : List Chars) (i : Nat)
    (names vals pks : Chars) : Except Chars (Chars × Chars × Chars) :=
  match row with
  | [] => .ok (names, vals, pks)
  | v :: rest =>
    match cols.get? i with
    | none => .error (strC "called Option::unwrap on a None value")
    | some c =>
      let pks := if c.isPk then (if pks.length > 0 then pks ++ strC ", " else pks) ++ c.name
        else pks
      let names := (if i > 0 then names ++ strC ", " else names) ++ c.name
      let vals := (if i > 0 then vals ++ strC ", " else vals) ++ strC "'" ++ v ++ strC "'"
      insertRowAux cols rest (i + 1) names vals pks

/-- `Table::insert` (src/table.rs:736): one seed-row upsert appended to `data`. -/
def Table.insertRow (self : Table) (data : Chars) (row : List Chars) (schema : Chars) :
    Except Chars Chars := do
  let (names, vals, pks) ← insertRowAux self.columns.list row 0 [] [] []
  pure (data ++ strC " insert into " ++ schema ++ strC "." ++ self.tableName ++ strC " ("
    ++ names ++ strC ") values (" ++ vals ++ strC ") ON CONFLICT (" ++ pks
    ++ strC ") DO NOTHING;" ++ strC "\n")

/-- Rust enum `CreateST` (src/table.rs:995). -/
inductive CreateST where
  | noneC
  | schemaAndTable
  | tableOnly
deriving DecidableEq

/-- The create-table arm of `Table::deploy` (src/table.rs:550): full CREATE with
schema DDL, owner, triggers, and the LiveModel mirror entry. -/
def deployCreate (self : Table) (dbc : Dbc) (schema file : Chars) (opt : MigrationOptions)
    (doCreate : CreateST) (sql comments : Chars) :
    Except RunErr (Chars × Chars × Dbc × Bool) := do
  let pkColumns := self.getPrimaryKeyColumns
  let hasCompositePk := pkColumns.length > 1
  let st0 : PgTable :=
    { tableName := self.tableName, columns := HMap.emptyH, fks := HMap.emptyH,
      triggers := HMap.emptyH, indexes := HMap.emptyH, grants := HMap.emptyH,
      primaryKey :=
        if pkColumns.isEmpty then none
        else some ⟨self.tableName ++ strC "_pkey", pkColumns⟩,
      sortOrder := 0, tableComment := none,
      owner := if self.owner.length > 0 then some self.owner else none }
  let stc ← self.columns.list.foldlM
    (fun (acc : PgTable × Chars) dc => do
      let cd ← (dc.columnDef schema self.tableName file).mapError RunErr.err
      pure ({ acc.1 with columns := acc.1.columns.insert dc.name cd },
        tableComments self acc.2 schema dc.name dc.description))
    (st0, comments)
  let st := stc.1
  let comments := stc.2
  let skipColumnPk := hasCompositePk
  let columns := self.columns.list.foldl
    (fun (cols : Chars) dc =>
      match st.columns.get dc.name with
      | some cd => cols ++ cd.defSql skipColumnPk ++ strC ", "
      | none => cols)
    []
  let columns :=
    if ¬ pkColumns.isEmpty ∧ hasCompositePk then
      columns ++ strC "PRIMARY KEY (" ++ joinComma pkColumns ++ strC ")" ++ strC ", "
    else if ¬ pkColumns.isEmpty then
      match st.pks with
      | some pksStr => columns ++ pksStr ++ strC ", "
      | none => columns
    else columns
  let sql :=
    if doCreate = .schemaAndTable ∧ ¬ schema = strC "public" then
      sql ++ strC "CREATE SCHEMA IF NOT EXISTS " ++ schema ++ strC " "
        ++ (if self.owner.length > 0 then strC "AUTHORIZATION " ++ self.owner else [])
        ++ strC ";\n"
    else sql
  let columns :=
    match rfindChar ',' columns with
    | some idx => removeAt columns idx
    | none => columns
  let partitionClause := (self.columns.list.findSome? (fun c => c.partitionBy.map (fun pv =>
    strC " PARTITION BY " ++ pv ++ strC " (" ++ c.name ++ strC ")"))).getD []
  let suffix := partitionClause ++ self.sql
  let csql := strC "CREATE TABLE " ++ schema ++ strC "." ++ self.tableName ++ strC " (" ++ columns
    ++ (if self.constraint.length > 0 then strC ", " else []) ++ self.constraint
    ++ strC ")" ++ suffix ++ strC "; \n"
  let sql := sql ++ csql
  let sql :=
    if self.owner.length > 0 then
      appendSt (strC "ALTER TABLE " ++ schema ++ strC "." ++ self.tableName ++ strC " OWNER TO "
        ++ self.owner) sql opt.withDdlRetry
    else sql
  let sqlSt :=
    if ¬ opt.excludeTriggers then
      self.triggers.list.foldl
        (fun (acc : Chars × PgTable) dt =>
          match dt.trigDef schema self.tableName with
          | some td => (acc.1 ++ td ++ strC "\n" ++ strC "\n",
              { acc.2 with triggers := acc.2.triggers.insert dt.name dt.toPgTrigger })
          | none => acc)
        (sql, st)
    else (sql, st)
  match dbc.get schema with
  | none => .error (.crash (strC "called Option::unwrap on a None value"))
  | some ss =>
    pure (sqlSt.1, comments, dbc.insert schema (ss.insert self.tableName sqlSt.2), true)

/-- The outputs of one `Table::deploy` planning run: the five batches, the
stderr-bound skipped-logs and the mirrored LiveModel. -/
structure DeployOut where
  sql : Chars
  comments : Chars
  indexesSql : Chars
  grantsSql : Chars
  data : Chars
  skippedColumns : Chars
  skippedTriggers : Chars
  skippedIndexes : Chars
  skippedGrants : Chars
  exec : Bool
  dbc : Dbc
deriving DecidableEq

/-- `Table::deploy` (src/table.rs:316), the per-table planner. -/
def Table.deploy (self : Table) (dbc : Dbc) (schema file : Chars) (opt : MigrationOptions) :
    Except RunErr DeployOut := do
  let phase1 : Except RunErr (CreateST × Chars × Chars × Chars × Bool × Dbc) :=
    match dbc.get schema with
    | none => .ok (.schemaAndTable, [], [], [], false, dbc)
    | some ss =>
      match ss.get self.tableName with
      | none => .ok (.tableOnly, [], [], [], false, dbc)
      | some ts => do
        let pks := ts.pks
        let st ← self.columns.list.foldlM (deployColumnStep self schema file opt pks)
          (⟨[], [], ts, false⟩ : ColState)
        let sql :=
          match st.ts.owner with
          | some o =>
            if self.owner.length > 0 ∧ ¬ self.owner = o then
              appendSt (strC "ALTER TABLE " ++ schema ++ strC "." ++ self.tableName
                ++ strC " OWNER TO " ++ self.owner) st.sql opt.withDdlRetry
            else st.sql
          | none => st.sql
        let tst ←
          if ¬ opt.excludeTriggers then
            self.triggers.list.foldlM (deployTriggerStep self schema opt)
              (⟨sql, [], st.ts, st.exec⟩ : TrigState)
          else pure (⟨sql, [], st.ts, st.exec⟩ : TrigState)
        let pkst ← deployPkStep self schema opt ⟨tst.sql, tst.ts, tst.exec⟩
        .ok (.noneC, pkst.sql, st.skippedColumns, tst.skippedTriggers, pkst.exec,
          dbc.insert schema (ss.insert self.tableName pkst.ts))
  let ph ← phase1
  let (doCreate, sql, skippedColumns, skippedTriggers, exec, dbc) := ph
  let dbc := if doCreate = CreateST.schemaAndTable then dbc.insert schema HMap.emptyH else dbc
  let created ←
    if ¬ doCreate = CreateST.noneC then deployCreate self dbc schema file opt doCreate sql []
    else pure (sql, ([] : Chars), dbc, exec)
  let (sql, comments, dbc, exec) := created
  let comments :=
    if exec ∧ self.description.length > 0 then
      comments ++ strC "COMMENT ON TABLE " ++ schema ++ strC "." ++ self.tableName
        ++ strC " IS '" ++ self.description ++ strC "'; \n" ++ strC "\n"
    else comments
  let ib := IndexBuilder.new self.columns
  let idx ← (generateIndexSql ib schema self.tableName dbc opt).mapError RunErr.err
  let (indexesSql, skippedIndexes, dbc) := idx
  let gr ← (generateGrantSql self.grant self.tableName schema dbc opt).mapError RunErr.err
  let (grantsSql, skippedGrants, dbc) := gr
  let data ← self.data.foldlM
    (fun data row => (self.insertRow data row schema).mapError RunErr.crash) ([] : Chars)
  let exec := exec || ¬ indexesSql.isEmpty || ¬ grantsSql.isEmpty
  pure { sql := sql
         comments := comments
         indexesSql := indexesSql
         grantsSql := grantsSql
         data := data
         skippedColumns := skippedColumns
         skippedTriggers := skippedTriggers
         skippedIndexes := skippedIndexes
         skippedGrants := skippedGrants
         exec := exec
         dbc := dbc }

/-- The value `Table::deploy` returns to its caller (src/table.rs:688): `false`
under a dry-run sink, otherwise the `exec` flag (batch execution assumed to
succeed). -/
def Table.deployRet (self : Table) (dbc : Dbc) (schema file : Chars) (opt : MigrationOptions)
    (dryRun : Bool) : Except RunErr (Bool × Dbc) := do
  let out ← self.deploy dbc schema file opt
  if dryRun then pure (false, out.dbc) else pure (out.exec, out.dbc)

/-- The `fk_table.find(".")` split of `Table::deploy_fk` (src/table.rs:807). -/
def fkSplitRef (schema ref : Chars) : Chars × Chars :=
  match findCharIdx '.' ref with
  | none => (schema, ref)
  | some i => (ref.take i, ref.drop (i + 1))

/-- Rust `pks` (src/table.rs:1191): primary-key column names of a YAML table. -/
def pksOf (schema table : Chars) (sks : OHMap Schema) : HSet :=
  match sks.get schema with
  | none => ⟨[]⟩
  | some fkst =>
    match fkst.tables.get table with
    | none => ⟨[]⟩
    | some tt =>
      tt.columns.list.foldl (fun (pk : HSet) cc => if cc.isPk then pk.insert cc.name else pk) ⟨[]⟩

/-- `Table::deploy_fk` (src/table.rs:788): the second pass over one table.
Returns (sql, mirrored LiveModel, `exec`). -/
def Table.deployFk (self : Table) (schemas : OHMap Schema) (dbc : Dbc) (schema : Chars)
    (isRetry : Bool) : Chars × Dbc × Bool :=
  let fkList : HMap FKTable :=
    match dbc.get schema with
    | none => HMap.emptyH
    | some ss =>
      match ss.get self.tableName with
      | none => HMap.emptyH
      | some _ts =>
        self.columns.list.foldl
          (fun (fkList : HMap FKTable) dc =>
            match dc.constraint with
            | none => fkList
            | some constr =>
              match constr.foreignKey with
              | none => fkList
              | some fk =>
                let split := fkSplitRef schema fk.references
                let fkSchema := split.1
                let fkTable := split.2
                let alreadyInDb :=
                  match dbc.get schema with
                  | some a =>
                    match a.get self.tableName with
                    | some b => (b.fks.get dc.name).isSome
                    | none => false
                  | none => false
                if alreadyInDb then fkList
                else
                  let fkColumns := pksOf fkSchema fkTable schemas
                  let key := fkSchema ++ strC "." ++ fkTable
                  if fkColumns.entries.length > 0 then
                    fkList.insert key ⟨fkSchema, fkTable, fkColumns, dc.name, fk.sql⟩
                  else fkList)
          HMap.emptyH
  let exec := fkList.entries.length > 0
  let out := fkList.entries.foldl
    (fun (acc : Chars × Dbc) kv =>
      let ff := kv.2
      let dbc :=
        match acc.2.get schema with
        | some ss =>
          match ss.get self.tableName with
          | some ts =>
            acc.2.insert schema (ss.insert self.tableName
              { ts with fks := ts.fks.insert ff.name ff })
          | none => acc.2
        | none => acc.2
      (appendSt (strC "ALTER TABLE " ++ schema ++ strC "." ++ self.tableName
        ++ strC " ADD CONSTRAINT fk_" ++ schema ++ strC "_" ++ self.tableName ++ strC "_"
        ++ ff.table ++ strC "_" ++ ff.name ++ strC " FOREIGN KEY (" ++ ff.name
        ++ strC ") REFERENCES " ++ ff.schema ++ strC "." ++ ff.table ++ strC " ("
        ++ ff.columnsStr ++ strC ") " ++ ff.sql) acc.1 isRetry, dbc))
    ([], dbc)
  (out.1, out.2, exec)

/-- The value `Table::deploy_fk` returns (src/table.rs:851): `false` under a
dry-run sink; otherwise `exec` when statements ran, and `true`(!) when there was
nothing to do. -/
def Table.deployFkRet (self : Table) (schemas : OHMap Schema) (dbc : Dbc) (schema : Chars)
    (isRetry : Bool) (dryRun : Bool) : Bool × Dbc :=
  let out := self.deployFk schemas dbc schema isRetry
  if dryRun then (false, out.2.1)
  else if out.2.2 then (out.2.2, out.2.1)
  else (true, out.2.1)

/-- `Schema::deploy_all_tables` (src/schema.rs:90): count the tables whose deploy
returned `true`, skipping templates. -/
def Schema.deployAllTables (self : Schema) (info : Dbc) (opt : MigrationOptions)
    (dryRun : Bool) : Except RunErr (Nat × Dbc) :=
  self.tables.list.foldlM
    (fun (acc : Nat × Dbc) t =>
      if t.isTemplateB then pure acc
      else do
        let r ← t.deployRet acc.2 self.schemaName self.file opt dryRun
        pure (if r.1 then acc.1 + 1 else acc.1, r.2))
    (0, info)

/-- `Schema::deploy_all_fk` (src/schema.rs:109). -/
def Schema.deployAllFk (self : Schema) (schemas : OHMap Schema) (info : Dbc)
    (retry : Bool) (dryRun : Bool) : Nat × Dbc :=
  self.tables.list.foldl
    (fun (acc : Nat × Dbc) t =>
      if t.isTemplateB then acc
      else
        let r := t.deployFkRet schemas acc.2 self.schemaName retry dryRun
        (if r.1 then acc.1 + 1 else acc.1, r.2))
    (0, info)

/-- `migrate` (src/lib.rs:117) after the live snapshot is loaded and the YAML is
parsed: the table pass, then the foreign-key pass, summing the per-schema
counts into the returned number of modified tables. -/
def migrateCount (schemas : OHMap Schema) (info : Dbc) (retry : Bool) (dryRun : Bool)
    (opt : MigrationOptions) : Except RunErr Nat := do
  let acc ← schemas.list.foldlM
    (fun (acc : Nat × Dbc) s => do
      let r ← s.deployAllTables acc.2 opt dryRun
      pure (acc.1 + r.1, r.2))
    (0, info)
  let acc := schemas.list.foldl
    (fun (acc : Nat × Dbc) s =>
      let r := s.deployAllFk schemas acc.2 retry dryRun
      (acc.1 + r.1, r.2))
    acc
  pure acc.1

/-! Concrete fixtures used by the counterexamples and the bug-witness theorems. -/

/-- A YAML-model column with only name, type and the pk/nullable constraint set. -/
def mkCol (name ctype : Chars) (pk nullable : Bool) : Column :=
  { name := name, columnType := ctype, defaultValue := none,
    constraint :=
      if pk || !nullable then some ⟨if pk then some true else none, nullable, none⟩ else none,
    description := [], sql := [], index := none, partitionBy := none }

/-- A live column with only name and type set. -/
def mkPgCol (name ctype : Chars) : PgColumnDfn :=
  { columnName := name, columnType := ctype, columnDefault := none, sql := none,
    fk := none, pk := false, nullable := true, sortOrder := 0, columnComment := none }

/-- A live table with the given columns and owner and nothing else. -/
def mkPgTable (name : Chars) (cols : List (Chars × PgColumnDfn)) (owner : Option Chars) :
    PgTable :=
  { tableName := name, columns := ⟨cols⟩, fks := HMap.emptyH, triggers := HMap.emptyH,
    indexes := HMap.emptyH, grants := HMap.emptyH, primaryKey := none, sortOrder := 0,
    tableComment := none, owner := owner }

/-- C1 fixture: a YAML table whose only divergence from live is the owner. -/
def exC1table : Table :=
  { Table.defaultT with
    tableName := strC "t"
    columns := ⟨[mkCol (strC "id") (strC "int4") false true]⟩
    owner := strC "o2" }

/-- C1 fixture: the live model holding `s.t` with owner `o1`. -/
def exC1dbc : Dbc :=
  ⟨[(strC "s", ⟨[(strC "t",
     mkPgTable (strC "t") [(strC "id", mkPgCol (strC "id") (strC "int4"))]
       (some (strC "o1")))]⟩)]⟩

/-- C2 fixture: `app.posts(user_id)` with a foreign key to `app.users`. -/
def exC2posts : Table :=
  { Table.defaultT with
    tableName := strC "posts"
    columns := ⟨[{ mkCol (strC "user_id") (strC "int4") false true with
      constraint := some ⟨none, true, some ⟨strC "app.users", []⟩⟩ }]⟩ }

/-- C2 fixture: `posts` with two columns, `user_id` and `author_id`, both
referencing `app.users`. -/
def exC2posts2 : Table :=
  { Table.defaultT with
    tableName := strC "posts"
    columns := ⟨[{ mkCol (strC "user_id") (strC "int4") false true with
      constraint := some ⟨none, true, some ⟨strC "app.users", []⟩⟩ },
      { mkCol (strC "author_id") (strC "int4") false true with
      constraint := some ⟨none, true, some ⟨strC "app.users", []⟩⟩ }]⟩ }

/-- C2 fixture: the YAML model of schema `app` with `users(id pk)` and `posts`. -/
def exC2schemas : OHMap Schema :=
  ⟨[{ schemaName := strC "app", owner := [],
      tables := ⟨[{ Table.defaultT with
                    tableName := strC "users"
                    columns := ⟨[mkCol (strC "id") (strC "serial") true true]⟩ },
                  exC2posts]⟩,
      file := [] }]⟩

/-- C2 fixture: the live table `app.posts`. -/
def exC2pgposts : PgTable :=
  mkPgTable (strC "posts") [(strC "user_id", mkPgCol (strC "user_id") (strC "int4"))] none

/-- C2 fixture: the tables of live schema `app`. -/
def exC2ss : HMap PgTable := ⟨[(strC "posts", exC2pgposts)]⟩

/-- C2 fixture: the live model after the first pass created `app.posts`. -/
def exC2dbc : Dbc := ⟨[(strC "app", exC2ss)]⟩

/-- C4 fixture: one declared index `i1 (c DESC)`. -/
def exC4cols : OHMap Column :=
  ⟨[{ mkCol (strC "c") (strC "int4") false true with
      index := some { Index.defaultI with name := strC "i1", order := strC "DESC" } }]⟩

/-- C4 fixture: the live index `i1 (c ASC)` that differs from the desired one. -/
def exC4ex : PgIndex := ⟨strC "i1", [⟨strC "c", strC "ASC", strC "LAST", []⟩], false, strC "btree"⟩

/-- C4 fixture: the live table `s.t` carrying `exC4ex`. -/
def exC4ts : PgTable :=
  { mkPgTable (strC "t") [(strC "c", mkPgCol (strC "c") (strC "int4"))] none with
    indexes := ⟨[(strC "i1", exC4ex)]⟩ }

/-- C4 fixture: the tables of live schema `s`. -/
def exC4ss : HMap PgTable := ⟨[(strC "t", exC4ts)]⟩

/-- C4 fixture: the live model already holds a different `i1` on `s.t`. -/
def exC4dbc : Dbc := ⟨[(strC "s", exC4ss)]⟩

/-- C4 fixture: gating off, failfast off. -/
def exC4opt : MigrationOptions := { MigrationOptions.defaultO with withoutFailfast := true }

/-- C7 fixture: a YAML document declaring a table whose name holds a space. -/
def exC7doc : Yaml :=
  .hashV [(strC "tables", .arrV [ .hashV [(strC "table",
    .hashV [(strC "tableName", .strV (strC "bad name"))])] ])]

/-- C8 fixture: a YAML table identical to its live counterpart. -/
def exC8table : Table :=
  { Table.defaultT with
    tableName := strC "t"
    columns := ⟨[mkCol (strC "id") (strC "int4") false true]⟩ }

/-- C8 fixture: the schema holding only `exC8table`. -/
def exC8schema : Schema :=
  { schemaName := strC "s", owner := [], tables := ⟨[exC8table]⟩, file := [] }

/-- C8 fixture: the live model already matching `exC8table` exactly. -/
def exC8dbc : Dbc :=
  ⟨[(strC "s", ⟨[(strC "t",
     mkPgTable (strC "t") [(strC "id", mkPgCol (strC "id") (strC "int4"))] none)]⟩)]⟩

/-- C3 fixture: a table named `t` with no further content. -/
def exC3table : Table := { Table.defaultT with tableName := strC "t" }

/-- C3 fixture: the YAML column `c varchar(64)`. -/
def exC3col : Column := mkCol (strC "c") (strC "varchar(64)") false true

/-- C3 fixture: loop state whose live table holds `c varchar(128)`. -/
def exC3st : ColState :=
  ⟨[], [], mkPgTable (strC "t") [(strC "c", mkPgCol (strC "c") (strC "varchar(128)"))] none,
    false⟩

/-- C3 fixture: the column definition `column_def` produces for `exC3col`. -/
def exC3dd : PgColumnDfn := { mkPgCol (strC "c") (strC "varchar(64)") with sql := some [] }

/-- C3 fixture: the gated ALTER statement. -/
def exC3alter : Chars := strC "ALTER TABLE s.t ALTER COLUMN c TYPE varchar(64)"

/-- C4 fixture: the desired index `IndexBuilder::new` collects from `exC4cols`. -/
def exC4desired : DesiredIndex :=
  ⟨strC "i1", [⟨strC "c", strC "DESC", [], []⟩], false, false, []⟩


/-- C10 fixture: a table declaring a single column. -/
def exC10table : Table :=
  { Table.defaultT with
    tableName := strC "t"
    columns := ⟨[mkCol (strC "id") (strC "int4") true true]⟩ }


/-- The consuming table's same-named entry, when there is one (spec §4.1: "same-named
entries in the consuming table override"). -/
def overrideWith {α : Type} [Named α] (sl : List α) (x : α) : α :=
  match sl.find? (fun c => Named.getName c = Named.getName x) with
  | some c => c
  | none => x

/-- The consuming table's entries not named in the template (spec §4.1). -/
def remainderOf {α : Type} [Named α] (tl sl : List α) : List α :=
  sl.filter (fun c => ¬ tl.any (fun c2 => Named.getName c2 = Named.getName c))

/-- The merged entry list spec §4.1 describes: template entries first, same-named
entries replaced in place by the consuming table's version, then the consuming
table's remaining entries in declaration order. -/
def mergedListSpec {α : Type} [Named α] (tl sl : List α) : List α :=
  tl.map (overrideWith sl) ++ remainderOf tl sl

/-- C9 fixture: a template table with columns `a`, `b` and an owner. -/
def exC9tpl : Table :=
  { Table.defaultT with
    tableName := strC "base"
    columns := ⟨[mkCol (strC "a") (strC "int4") true true,
                 mkCol (strC "b") (strC "int4") false true]⟩
    owner := strC "tople"
    isTemplate := some true }

/-- C9 fixture: a consuming table overriding `b` and adding `c`. -/
def exC9t : Table :=
  { Table.defaultT with
    tableName := strC "child"
    columns := ⟨[mkCol (strC "b") (strC "text") false true,
                 mkCol (strC "c") (strC "int4") false true]⟩
    useTemplates := [strC "base"] }

/-- The type string `varchar(n)`, as written in a YAML column type. -/
def mkVarchar (n : Nat) : Chars := strC "varchar(" ++ natRepr n ++ strC ")"

/-- Helper: the truncate-at-first-match shape of `safe_sql_name` is `takeWhile`
of the negated predicate. -/
theorem take_findIdx_eq_takeWhile (p : Char → Bool) (s : Chars) :
    (match s.findIdx? p with
     | none => s
     | some i => s.take i) = s.takeWhile (fun c => !(p c)) := by
  induction s with
  | nil => simp
  | cons a l ih =>
    rw [List.findIdx?_cons]
    by_cases h : p a
    · simp [h]
    · rw [if_neg (by simp [h]), List.findIdx?_succ]
      cases hf : List.findIdx? p l with
      | none =>
        rw [hf] at ih
        simp only [] at ih
        simp [hf, List.takeWhile_cons, h, ← ih]
      | some i =>
        rw [hf] at ih
        simp only [] at ih
        simp [hf, List.takeWhile_cons, h, List.take_succ_cons, ← ih]

/-- Helper: a bind in `Except` that returned `ok` passed through an `ok`. -/
theorem exceptBind_ok {ε α β : Type} {x : Except ε α} {f : α → Except ε β} {b : β}
    (h : (x >>= f) = .ok b) : ∃ a, x = .ok a ∧ f a = .ok b := by
  cases x with
  | error e => simp [Bind.bind, Except.bind] at h
  | ok a => exact ⟨a, rfl, by simpa [Bind.bind, Except.bind] using h⟩

/-- C7 (amended): `safe_sql_name` truncates at the first space, `.`, `;`, newline
or tab, and it is applied to column names, trigger names and grantee fields —
but *not* to table names, schema names or index names, which are stored
verbatim as read from the YAML. -/
theorem claim_C7_amended_safe_sql_name :
    (∀ s : Chars, safeSqlName s
        = s.takeWhile (fun c => !(c = ' ' || c = '.' || c = ';' || c = '\n' || c = '\t')))
    ∧ (∀ y : Yaml, (Column.new y).name = safeSqlName (asStrEsc y "name"))
    ∧ (∀ y : Yaml, (Trig.new y).name = safeSqlName (asStrEsc y "name"))
    ∧ (∀ v : Yaml, (YGrant.newList (.arrV [v])).map (·.allG) = [safeSqlName (asStrEsc v "all")])
    ∧ (∀ (y : Yaml) (tn : Chars) (file : Option Chars) (r : Table),
        Table.new y tn file = .ok r → r.tableName = tn)
    ∧ (∀ s : Chars, Schema.schemaNameOf (.hashV [(strC "schemaName", .strV s)]) = s)
    ∧ (∀ (y : Yaml) (ix : Index), Index.new y = some ix → ix.name = asStrEsc y "name") := by
  refine ⟨fun s => take_findIdx_eq_takeWhile _ s, fun y => rfl, fun y => rfl, fun v => rfl,
    ?_, ?_, ?_⟩
  · intro y tn file r h
    unfold Table.new at h
    obtain ⟨c1, h1, h⟩ := exceptBind_ok h
    obtain ⟨t1, h2, h⟩ := exceptBind_ok h
    obtain ⟨c2, h3, h⟩ := exceptBind_ok h
    simp only [Except.ok.injEq] at h
    rw [← h]
  · intro s
    rfl
  · intro y ix h
    unfold Index.new at h
    by_cases he : (asStrEsc y "name").isEmpty
    · rw [if_pos he] at h
      exact absurd h (by simp)
    · rw [if_neg he] at h
      simp only [Option.some.injEq] at h
      rw [← h]

/-- C7 witness: the amended statement applied to a concrete YAML table whose
name holds a space — the name is stored verbatim. -/
theorem claim_C7_witness :
    Table.new (Yaml.hashV []) (strC "bad name") none
      = .ok { Table.defaultT with tableName := strC "bad name" }
    ∧ ({ Table.defaultT with tableName := strC "bad name" } : Table).tableName
      = strC "bad name" := by
  refine ⟨by decide, ?_⟩
  exact claim_C7_amended_safe_sql_name.2.2.2.2.1 (Yaml.hashV []) (strC "bad name") none _
    (by decide)

/-- Helper: an `HMap` lookup that succeeds means `containsKey` is true. -/
theorem hmap_containsKey_of_get {α : Type} {m : HMap α} {k : Chars} {v : α}
    (h : m.get k = some v) : m.containsKey k = true := by
  unfold HMap.get at h
  unfold HMap.containsKey
  cases hf : m.entries.find? (fun kv => kv.1 = k) with
  | none => rw [hf] at h; simp at h
  | some kv =>
    have := List.find?_some hf
    have hmem := List.mem_of_find?_eq_some hf
    rw [List.any_eq_true]
    exact ⟨kv, hmem, this⟩

/-- C3: type-change gating for a shared column.  A `SizeExtension` or
`Compatible` classification always emits the `ALTER COLUMN … TYPE` statement,
whatever `withSizeCut` says; a `SizeReduction` or `Incompatible` classification
with `withSizeCut = false` aborts with an error naming the column and the SQL
when `withoutFailfast = false`, and records only a `-- SKIPPED` line (emitting
no SQL) when `withoutFailfast = true`; `NoChange` emits nothing. -/
theorem claim_C3_type_change_gating (self : Table) (schema file : Chars)
    (opt : MigrationOptions) (pks : Option Chars) (st : ColState) (dc : Column)
    (ec dd : PgColumnDfn)
    (hec : st.ts.columns.get dc.name = some ec)
    (hdef : dc.columnDef schema self.tableName file = .ok dd)
    (e d : Chars) (he : e = lowerChars ec.columnType) (hd : d = lowerChars dd.columnType)
    (hne : ¬ e = d) (alter : Chars)
    (halter : alter = strC "ALTER TABLE " ++ schema ++ strC "." ++ self.tableName
      ++ strC " ALTER COLUMN " ++ dc.name ++ strC " TYPE " ++ dd.columnType) :
    ((analyzeTypeChange e d = .ok .sizeExtension ∨ analyzeTypeChange e d = .ok .compatible) →
      deployColumnStep self schema file opt pks st dc
        = .ok { st with
                sql := appendSt alter st.sql opt.withDdlRetry
                ts := { st.ts with columns := st.ts.columns.insert dc.name dd }
                exec := true })
    ∧ ((analyzeTypeChange e d = .ok .sizeReduction ∨ analyzeTypeChange e d = .ok .incompatible) →
        opt.withSizeCut = false → opt.withoutFailfast = false →
        ∃ msg, deployColumnStep self schema file opt pks st dc = .error (.err msg)
          ∧ dc.name <:+: msg ∧ alter <:+: msg)
    ∧ ((analyzeTypeChange e d = .ok .sizeReduction ∨ analyzeTypeChange e d = .ok .incompatible) →
        opt.withSizeCut = false → opt.withoutFailfast = true →
        ∃ line, deployColumnStep self schema file opt pks st dc
            = .ok { st with skippedColumns := st.skippedColumns ++ line }
          ∧ (strC "-- SKIPPED").isPrefixOf line)
    ∧ (analyzeTypeChange e d = .ok .noChange →
        deployColumnStep self schema file opt pks st dc = .ok st) := by
  have hkey : st.ts.columns.containsKey dc.name = true := hmap_containsKey_of_get hec
  have hbody : deployColumnStep self schema file opt pks st dc
      = ((analyzeTypeChange e d).mapError RunErr.crash) >>= fun typeChange =>
        match typeChange with
        | .sizeExtension | .compatible =>
          .ok { st with
                sql := appendSt alter st.sql opt.withDdlRetry
                ts := { st.ts with columns := st.ts.columns.insert dc.name dd }
                exec := true }
        | .sizeReduction =>
          if opt.withSizeCut then
            .ok { st with
                  sql := appendSt alter st.sql opt.withDdlRetry
                  ts := { st.ts with columns := st.ts.columns.insert dc.name dd }
                  exec := true }
          else if opt.withoutFailfast then
            .ok { st with skippedColumns := st.skippedColumns
              ++ (strC "-- SKIPPED (with_size_cut=false): " ++ alter ++ strC ";\n-- Column "
              ++ dc.name ++ strC " type change from " ++ e ++ strC " to "
              ++ d ++ strC "\n") }
          else
            .error (.err (strC "Column " ++ dc.name ++ strC " on " ++ schema ++ strC "."
              ++ self.tableName ++ strC " type change from " ++ e ++ strC " to " ++ d
              ++ strC " requires size reduction but with_size_cut is disabled. SQL: "
              ++ alter ++ strC ";"))
        | .incompatible =>
          if opt.withSizeCut then
            .ok { st with
                  sql := appendSt (alter ++ strC " USING " ++ dc.name ++ strC "::"
                    ++ dd.columnType) st.sql opt.withDdlRetry
                  ts := { st.ts with columns := st.ts.columns.insert dc.name dd }
                  exec := true }
          else if opt.withoutFailfast then
            .ok { st with skippedColumns := st.skippedColumns
              ++ (strC "-- SKIPPED (with_size_cut=false): " ++ (alter ++ strC " USING "
              ++ dc.name ++ strC "::" ++ dd.columnType)
              ++ strC ";\n-- Column " ++ dc.name ++ strC " incompatible type change from "
              ++ e ++ strC " to " ++ d ++ strC "\n") }
          else
            .error (.err (strC "Column " ++ dc.name ++ strC " on " ++ schema ++ strC "."
              ++ self.tableName ++ strC " has incompatible type change from " ++ e
              ++ strC " to " ++ d
              ++ strC " but with_size_cut is disabled. SQL: " ++ (alter ++ strC " USING "
              ++ dc.name ++ strC "::" ++ dd.columnType) ++ strC ";"))
        | .noChange => .ok st := by
    unfold deployColumnStep
    rw [if_neg (by simp [hkey]), hec]
    simp only [hdef, Except.mapError, Bind.bind, Except.bind, ← he, ← hd, List.append_assoc]
    rw [if_neg hne]
    congr 1
    funext typeChange
    cases typeChange <;> simp [halter, List.append_assoc]
  have hskip : ∀ rest : Chars,
      (strC "-- SKIPPED").isPrefixOf (strC "-- SKIPPED (with_size_cut=false): " ++ rest)
        = true := by
    intro rest
    have h1 : strC "-- SKIPPED" <+: strC "-- SKIPPED (with_size_cut=false): " := by decide
    exact List.isPrefixOf_iff_prefix.mpr (h1.trans (List.prefix_append _ _))
  refine ⟨?_, ?_, ?_, ?_⟩
  · rintro (hch | hch) <;>
      simp only [hbody, hch, Except.mapError, Bind.bind, Except.bind]
  · rintro (hch | hch) hcut hff
    · simp only [hbody, hch, Except.mapError, Bind.bind, Except.bind, hcut, hff,
        Bool.false_eq_true, if_false]
      exact ⟨_, rfl,
        ⟨strC "Column ", strC " on " ++ schema ++ strC "." ++ self.tableName
          ++ strC " type change from " ++ e ++ strC " to " ++ d
          ++ strC " requires size reduction but with_size_cut is disabled. SQL: "
          ++ alter ++ strC ";", by simp [List.append_assoc]⟩,
        ⟨strC "Column " ++ dc.name ++ strC " on " ++ schema ++ strC "." ++ self.tableName
          ++ strC " type change from " ++ e ++ strC " to " ++ d
          ++ strC " requires size reduction but with_size_cut is disabled. SQL: ",
          strC ";", by simp [List.append_assoc]⟩⟩
    · simp only [hbody, hch, Except.mapError, Bind.bind, Except.bind, hcut, hff,
        Bool.false_eq_true, if_false]
      exact ⟨_, rfl,
        ⟨strC "Column ", strC " on " ++ schema ++ strC "." ++ self.tableName
          ++ strC " has incompatible type change from " ++ e ++ strC " to " ++ d
          ++ strC " but with_size_cut is disabled. SQL: " ++ alter ++ strC " USING "
          ++ dc.name ++ strC "::" ++ dd.columnType ++ strC ";",
          by simp [List.append_assoc]⟩,
        ⟨strC "Column " ++ dc.name ++ strC " on " ++ schema ++ strC "." ++ self.tableName
          ++ strC " has incompatible type change from " ++ e ++ strC " to " ++ d
          ++ strC " but with_size_cut is disabled. SQL: ",
          strC " USING " ++ dc.name ++ strC "::" ++ dd.columnType ++ strC ";",
          by simp [List.append_assoc]⟩⟩
  · rintro (hch | hch) hcut hff
    · simp only [hbody, hch, Except.mapError, Bind.bind, Except.bind, hcut, hff,
        Bool.false_eq_true, if_false, if_true]
      exact ⟨_, rfl, hskip _⟩
    · simp only [hbody, hch, Except.mapError, Bind.bind, Except.bind, hcut, hff,
        Bool.false_eq_true, if_false, if_true]
      exact ⟨_, rfl, hskip _⟩
  · intro hch
    simp only [hbody, hch, Except.mapError, Bind.bind, Except.bind]

end SchemaGuard

namespace SchemaGuard

/-! Theorems.  Each claim of the specification gets exactly one theorem (with a
counterexample and a witness where the status asks for them). -/

/-- C5: the classifier is not total.  `parse_type_size` slices
`[paren_pos + 1 .. len - 1]` without a bounds check, so the type string
`"varchar("` — a malformed parenthesis the spec explicitly covers — makes
`analyze_type_change` panic instead of returning one of the five outcomes. -/
theorem claim_C5_classifier_crash :
    parseTypeSize (strC "varchar(")
      = .error (strC "byte index out of range (slice starts after it ends)")
    ∧ analyzeTypeChange (strC "varchar(") (strC "text")
      = .error (strC "byte index out of range (slice starts after it ends)") := by
  constructor <;> decide

/-- C6 counterexample: `classify(t, t) = NoChange` fails at `t = "varchar("`,
where the classifier crashes instead. -/
theorem claim_C6_counterexample :
    ¬ analyzeTypeChange (strC "varchar(") (strC "varchar(") = .ok TypeChange.noChange := by
  decide

/-- C1: the live-model mirror is broken for table owners.  On a table whose only
divergence is the owner, the first planner run emits `ALTER TABLE s.t OWNER TO
o2` but leaves the mirrored owner at `o1` (and leaves `exec = false`), so the
second run over the updated LiveModel emits the same statement again instead of
nothing. -/
theorem claim_C1_owner_mirror_bug :
    ((exC1table.deploy exC1dbc (strC "s") [] MigrationOptions.defaultO).map
      (fun o => (o.sql, o.exec,
        (o.dbc.get (strC "s")).bind (fun ss => (ss.get (strC "t")).map (·.owner))))
      = .ok (strC "ALTER TABLE s.t OWNER TO o2;\n", false, some (some (strC "o1"))))
    ∧ (((exC1table.deploy exC1dbc (strC "s") [] MigrationOptions.defaultO).bind
        (fun o => exC1table.deploy o.dbc (strC "s") [] MigrationOptions.defaultO)).map (·.sql)
      = .ok (strC "ALTER TABLE s.t OWNER TO o2;\n")) := by
  constructor <;> decide

/-- C2 counterexample: for `app.posts(user_id)` referencing `app.users`, the
second pass emits constraint name `fk_app_posts_users_user_id` — the target
schema is not embedded — so the claimed `fk_app_posts_app_users_user_id` never
appears in the emitted batch. -/
theorem claim_C2_counterexample :
    containsSub (strC "fk_app_posts_app_users_user_id")
      (exC2posts.deployFk exC2schemas exC2dbc (strC "app") false).1 = false
    ∧ (exC2posts.deployFk exC2schemas exC2dbc (strC "app") false).1
      = strC "ALTER TABLE app.posts ADD CONSTRAINT fk_app_posts_users_user_id FOREIGN KEY (user_id) REFERENCES app.users (id) ;\n" := by
  constructor <;> decide

/-- C4 counterexample: with `withIndexDrop = false` and `withoutFailfast = true`
and a live index differing from the desired one, the emitted batch still holds
the `CREATE INDEX` (only the `DROP INDEX` is withheld), so the claim that
neither statement appears is false. -/
theorem claim_C4_counterexample :
    (generateIndexSql (IndexBuilder.new exC4cols) (strC "s") (strC "t") exC4dbc exC4opt).map
      (fun r => (containsSub (strC "CREATE") r.1, containsSub (strC "DROP INDEX") r.1,
        containsSub (strC "-- SKIPPED") r.2.1))
      = .ok (true, false, true) := by
  decide

/-- C7 counterexample: a table name read from the YAML document is stored
verbatim — `safe_sql_name` is not applied to it, so the name `bad name` keeps
its space. -/
theorem claim_C7_counterexample :
    (((Schema.new (Yaml.hashV []) []).append exC7doc).map
      (fun sch => sch.tables.list.map (·.tableName)) = .ok [strC "bad name"])
    ∧ ¬ safeSqlName (strC "bad name") = strC "bad name" := by
  constructor <;> decide

/-- C8: `migrate` does not return the count of modified tables.  On a YAML model
identical to the live model, the table pass plans nothing (`exec = false`, all
five batches empty) and the FK pass emits nothing, yet `deploy_fk` returns
`Ok(true)` when it has nothing to do, so `migrate` counts the untouched table
and returns 1 instead of 0. -/
theorem claim_C8_migrate_count_bug :
    migrateCount ⟨[exC8schema]⟩ exC8dbc true false MigrationOptions.defaultO = .ok 1
    ∧ ((exC8table.deploy exC8dbc (strC "s") [] MigrationOptions.defaultO).map
        (fun o => !o.exec && o.sql.isEmpty && o.comments.isEmpty && o.indexesSql.isEmpty
          && o.grantsSql.isEmpty && o.data.isEmpty)
      = .ok true)
    ∧ (exC8table.deployFk ⟨[exC8schema]⟩ exC8dbc (strC "s") false).1 = [] := by
  refine ⟨by decide, by decide, by decide⟩

/-- C3 witness: the gating theorem applied to a concrete `varchar(128) →
varchar(64)` reduction with every knob off — the planner aborts with an error
naming the column and the SQL. -/
theorem claim_C3_witness :
    ∃ msg, deployColumnStep exC3table (strC "s") [] MigrationOptions.defaultO none exC3st exC3col
        = .error (.err msg) ∧ strC "c" <:+: msg ∧ exC3alter <:+: msg :=
  (claim_C3_type_change_gating exC3table (strC "s") [] MigrationOptions.defaultO none
    exC3st exC3col (mkPgCol (strC "c") (strC "varchar(128)")) exC3dd (by decide) (by decide)
    (strC "varchar(128)") (strC "varchar(64)") (by decide) (by decide) (by decide)
    exC3alter (by decide)).2.1 (Or.inl (by decide)) rfl rfl

/-- C4 (amended): with `withIndexDrop = false` and `withoutFailfast = true`, a
present-but-different index loses only its `DROP INDEX`: the batch still
carries the `CREATE … IF NOT EXISTS`, the LiveModel mirror is updated as if the
index were replaced, and the skipped-log records both statements. -/
theorem claim_C4_amended_index_gating (schema tn idxName : Chars) (desired : DesiredIndex)
    (dbc : Dbc) (ss : HMap PgTable) (ts : PgTable) (ex : PgIndex) (opt : MigrationOptions)
    (hss : dbc.get schema = some ss) (hts : ss.get tn = some ts)
    (hex : ts.indexes.get idxName = some ex)
    (hplus : ¬ idxName = strC "+") (hempty : ¬ idxName.isEmpty = true)
    (hmatch : indexMatches desired ex = false)
    (hknob : opt.withIndexDrop = false) (hff : opt.withoutFailfast = true) :
    generateIndexSql ⟨[(idxName, desired)]⟩ schema tn dbc opt
      = .ok (buildCreateIndexSql schema tn idxName desired,
          strC "-- SKIPPED (with_index_drop=false):\n-- "
            ++ (strC "DROP INDEX IF EXISTS " ++ schema ++ strC "." ++ idxName ++ strC ";")
            ++ strC "\n-- " ++ trimChars (buildCreateIndexSql schema tn idxName desired)
            ++ strC "\n",
          updateDbcIndex schema tn idxName desired dbc) := by
  unfold generateIndexSql
  rw [hss]
  simp only [hts]
  simp only [List.foldlM, indexStep, hex, hplus, hempty, hmatch, hknob, hff,
    Bool.false_eq_true, if_false, if_true, or_self]
  simp [Bind.bind, Except.bind, pure, Except.pure]

/-- C4 witness: the amended gating applied to the concrete fixture — the CREATE
survives, the DROP does not, the skipped-log holds both. -/
theorem claim_C4_witness :
    generateIndexSql ⟨[(strC "i1", exC4desired)]⟩ (strC "s") (strC "t") exC4dbc exC4opt
      = .ok (buildCreateIndexSql (strC "s") (strC "t") (strC "i1") exC4desired,
          strC "-- SKIPPED (with_index_drop=false):\n-- "
            ++ (strC "DROP INDEX IF EXISTS " ++ strC "s" ++ strC "." ++ strC "i1" ++ strC ";")
            ++ strC "\n-- "
            ++ trimChars (buildCreateIndexSql (strC "s") (strC "t") (strC "i1") exC4desired)
            ++ strC "\n",
          updateDbcIndex (strC "s") (strC "t") (strC "i1") exC4desired exC4dbc) :=
  claim_C4_amended_index_gating (strC "s") (strC "t") (strC "i1") exC4desired exC4dbc
    exC4ss exC4ts exC4ex exC4opt (by decide) (by decide) (by decide) (by decide) (by decide)
    (by decide) (by decide) (by decide)

set_option synthInstance.maxHeartbeats 1000000 in
/-- C2 (amended): the second pass keys statements per referenced target table,
and the constraint name embeds the target table but *not* the target schema.
Clause 1: for a table with one FK column `c` referencing `s2.t2` whose FK is
not yet in the LiveModel and whose target has the single primary-key column
`pk`, the pass emits exactly `ALTER TABLE s.t ADD CONSTRAINT fk_<s>_<t>_<t2>_<c>
FOREIGN KEY (c) REFERENCES s2.t2 (pk) <fk-sql>;`.  Clause 2: for a table with
two FK columns both referencing the same target `s2.t2`, the pass emits one
single statement — the `HashMap` key is the target, so the second column
overwrites the first and only `fk_<s>_<t>_<t2>_<c2>` for the last column `c2`
appears. -/
theorem claim_C2_amended_fk_statement :
    (∀ (tb : Table) (schemas : OHMap Schema) (dbc : Dbc) (schema : Chars)
      (ss : HMap PgTable) (ts : PgTable) (col : Column) (cst : Constr)
      (ref fksql s2 t2 pk : Chars) (pkset : HSet),
      tb.columns.list = [col] →
      col.constraint = some cst →
      cst.foreignKey = some ⟨ref, fksql⟩ →
      dbc.get schema = some ss → ss.get tb.tableName = some ts →
      ts.fks.get col.name = none →
      fkSplitRef schema ref = (s2, t2) →
      pksOf s2 t2 schemas = pkset →
      pkset.entries = [pk] →
      (tb.deployFk schemas dbc schema false).1
        = strC "ALTER TABLE " ++ schema ++ strC "." ++ tb.tableName
          ++ strC " ADD CONSTRAINT fk_" ++ schema ++ strC "_" ++ tb.tableName ++ strC "_"
          ++ t2 ++ strC "_" ++ col.name ++ strC " FOREIGN KEY (" ++ col.name
          ++ strC ") REFERENCES " ++ s2 ++ strC "." ++ t2
          ++ strC " (" ++ pk ++ strC ") " ++ fksql ++ strC ";\n")
    ∧ (∀ (tb : Table) (schemas : OHMap Schema) (dbc : Dbc) (schema : Chars)
      (ss : HMap PgTable) (ts : PgTable) (col1 col2 : Column) (cst1 cst2 : Constr)
      (ref1 ref2 fksql1 fksql2 s2 t2 pk : Chars) (pkset : HSet),
      tb.columns.list = [col1, col2] →
      col1.constraint = some cst1 →
      cst1.foreignKey = some ⟨ref1, fksql1⟩ →
      col2.constraint = some cst2 →
      cst2.foreignKey = some ⟨ref2, fksql2⟩ →
      dbc.get schema = some ss → ss.get tb.tableName = some ts →
      ts.fks.get col1.name = none →
      ts.fks.get col2.name = none →
      fkSplitRef schema ref1 = (s2, t2) →
      fkSplitRef schema ref2 = (s2, t2) →
      pksOf s2 t2 schemas = pkset →
      pkset.entries = [pk] →
      (tb.deployFk schemas dbc schema false).1
        = strC "ALTER TABLE " ++ schema ++ strC "." ++ tb.tableName
          ++ strC " ADD CONSTRAINT fk_" ++ schema ++ strC "_" ++ tb.tableName ++ strC "_"
          ++ t2 ++ strC "_" ++ col2.name ++ strC " FOREIGN KEY (" ++ col2.name
          ++ strC ") REFERENCES " ++ s2 ++ strC "." ++ t2
          ++ strC " (" ++ pk ++ strC ") " ++ fksql2 ++ strC ";\n") := by
  constructor
  · intro tb schemas dbc schema ss ts col cst ref fksql s2 t2 pk pkset
      hcols hconstr hfk hss hts habs hsplit hpks hpk1
    unfold Table.deployFk
    rw [hss]
    simp only [hts]
    rw [hcols]
    simp only [List.foldl, hconstr, hfk, hsplit, hss, hts, habs, hpks, hpk1]
    simp [appendSt, FKTable.columnsStr, hpk1]
  · intro tb schemas dbc schema ss ts col1 col2 cst1 cst2 ref1 ref2 fksql1 fksql2 s2 t2 pk
      pkset hcols hc1 hf1 hc2 hf2 hss hts hab1 hab2 hsp1 hsp2 hpks hpk1
    unfold Table.deployFk
    rw [hss]
    simp only [hts]
    rw [hcols]
    simp only [List.foldl, hc1, hf1, hc2, hf2, hsp1, hsp2, hss, hts, hab1, hab2, hpks, hpk1]
    simp [HMap.insert, HMap.containsKey, HMap.emptyH, appendSt, FKTable.columnsStr, hpk1]

/-- C2 witness: the single-column clause at the `app.posts → app.users` fixture
(the emitted constraint name is `fk_app_posts_users_user_id`), and the
two-columns-same-target clause at the `user_id`/`author_id` fixture — one
statement only, for `author_id`. -/
theorem claim_C2_witness :
    ((exC2posts.deployFk exC2schemas exC2dbc (strC "app") false).1
      = strC "ALTER TABLE " ++ strC "app" ++ strC "." ++ exC2posts.tableName
        ++ strC " ADD CONSTRAINT fk_" ++ strC "app" ++ strC "_" ++ exC2posts.tableName
        ++ strC "_" ++ strC "users" ++ strC "_" ++ strC "user_id" ++ strC " FOREIGN KEY ("
        ++ strC "user_id" ++ strC ") REFERENCES " ++ strC "app" ++ strC "." ++ strC "users"
        ++ strC " (" ++ strC "id" ++ strC ") " ++ ([] : Chars) ++ strC ";\n")
    ∧ ((exC2posts2.deployFk exC2schemas exC2dbc (strC "app") false).1
      = strC "ALTER TABLE " ++ strC "app" ++ strC "." ++ exC2posts2.tableName
        ++ strC " ADD CONSTRAINT fk_" ++ strC "app" ++ strC "_" ++ exC2posts2.tableName
        ++ strC "_" ++ strC "users" ++ strC "_" ++ strC "author_id" ++ strC " FOREIGN KEY ("
        ++ strC "author_id" ++ strC ") REFERENCES " ++ strC "app" ++ strC "." ++ strC "users"
        ++ strC " (" ++ strC "id" ++ strC ") " ++ ([] : Chars) ++ strC ";\n") :=
  ⟨claim_C2_amended_fk_statement.1 exC2posts exC2schemas exC2dbc (strC "app") exC2ss
    exC2pgposts
    { mkCol (strC "user_id") (strC "int4") false true with
      constraint := some ⟨none, true, some ⟨strC "app.users", []⟩⟩ }
    ⟨none, true, some ⟨strC "app.users", []⟩⟩ (strC "app.users") [] (strC "app")
    (strC "users") (strC "id") ⟨[strC "id"]⟩ (by decide) (by decide) (by decide) (by decide)
    (by decide) (by decide) (by decide) (by decide) (by decide),
   claim_C2_amended_fk_statement.2 exC2posts2 exC2schemas exC2dbc (strC "app") exC2ss
    exC2pgposts
    { mkCol (strC "user_id") (strC "int4") false true with
      constraint := some ⟨none, true, some ⟨strC "app.users", []⟩⟩ }
    { mkCol (strC "author_id") (strC "int4") false true with
      constraint := some ⟨none, true, some ⟨strC "app.users", []⟩⟩ }
    ⟨none, true, some ⟨strC "app.users", []⟩⟩ ⟨none, true, some ⟨strC "app.users", []⟩⟩
    (strC "app.users") (strC "app.users") [] [] (strC "app") (strC "users") (strC "id")
    ⟨[strC "id"]⟩ (by decide) (by decide) (by decide) (by decide) (by decide) (by decide)
    (by decide) (by decide) (by decide) (by decide) (by decide) (by decide) (by decide)⟩

/-- Helper: joining one more piece with `", "`. -/
theorem joinComma_concat (l : List Chars) (x : Chars) :
    joinComma (l ++ [x]) = if l = [] then x else joinComma l ++ strC ", " ++ x := by
  induction l with
  | nil => simp [joinComma]
  | cons a l ih =>
    cases l with
    | nil => simp [joinComma]
    | cons b l2 =>
      rw [List.cons_append, List.cons_append]
      rw [joinComma, ← List.cons_append, ih]
      simp [joinComma, List.append_assoc]

/-- Helper: a join of non-empty pieces is empty only when there is no piece. -/
theorem joinComma_ne_nil (l : List Chars) (hn : ∀ x ∈ l, x ≠ []) (hl : l ≠ []) :
    joinComma l ≠ [] := by
  cases l with
  | nil => exact absurd rfl hl
  | cons a l2 =>
    cases l2 with
    | nil => simpa [joinComma] using hn a (by simp)
    | cons b l3 =>
      simp only [joinComma]
      intro hcontra
      rw [List.append_eq_nil] at hcontra
      exact absurd (List.append_eq_nil.mp hcontra.1).2 (by decide)

/-- Helper: the accumulators of `Table::insert` follow declaration order — the
loop state over the processed prefix `done` equals the `", "`-joins of the
matching column prefix. -/
theorem insertRowAux_spec (cols : List Column) (hn : ∀ c ∈ cols, c.name ≠ []) :
    ∀ (rest done : List Chars), done.length + rest.length ≤ cols.length →
      insertRowAux cols rest done.length
        (joinComma ((cols.take done.length).map (·.name)))
        (joinComma (done.map (fun v => strC "'" ++ v ++ strC "'")))
        (joinComma (((cols.take done.length).filter (·.isPk)).map (·.name)))
      = .ok (joinComma ((cols.take (done.length + rest.length)).map (·.name)),
          joinComma ((done ++ rest).map (fun v => strC "'" ++ v ++ strC "'")),
          joinComma (((cols.take (done.length + rest.length)).filter (·.isPk)).map (·.name)))
    := by
  intro rest
  induction rest with
  | nil => intro done h; simp [insertRowAux]
  | cons v rest ih =>
    intro done h
    have hk : done.length < cols.length := by
      simp only [List.length_cons] at h
      omega
    cases hc : cols.get? done.length with
    | none =>
      rw [List.get?_eq_none] at hc
      omega
    | some c =>
      have hmem : c ∈ cols := List.get?_mem hc
      have hc2 : cols[done.length]? = some c := by
        rw [← List.get?_eq_getElem?]
        exact hc
      have htake : cols.take (done.length + 1) = cols.take done.length ++ [c] := by
        rw [List.take_succ, hc2]
        rfl
      have hih := ih (done ++ [v]) (by
        simp only [List.length_cons] at h
        simp only [List.length_append, List.length_cons, List.length_nil]
        omega)
      simp only [List.length_append, List.length_cons, List.length_nil, Nat.zero_add,
        Nat.add_zero] at hih
      have hnamesStep :
          (if done.length > 0 then
             joinComma ((cols.take done.length).map (·.name)) ++ strC ", "
           else joinComma ((cols.take done.length).map (·.name))) ++ c.name
          = joinComma ((cols.take (done.length + 1)).map (·.name)) := by
        rw [htake]
        simp only [List.map_append, List.map_cons, List.map_nil]
        rw [joinComma_concat]
        by_cases hd : done.length = 0
        · simp [hd, List.take_zero, joinComma]
        · have hcols : cols ≠ [] := by
            intro hnil
            rw [hnil] at hk
            simp at hk
          have hmapln : ¬ (cols.take done.length).map (·.name) = [] := by
            simp only [List.map_eq_nil_iff, List.take_eq_nil_iff]
            rintro (h0 | h0)
            · exact hd h0
            · exact hcols h0
          rw [if_neg hmapln, if_pos (by omega)]
      have hvalsStep :
          (if done.length > 0 then
             joinComma (done.map (fun v => strC "'" ++ v ++ strC "'")) ++ strC ", "
           else joinComma (done.map (fun v => strC "'" ++ v ++ strC "'")))
            ++ strC "'" ++ v ++ strC "'"
          = joinComma ((done ++ [v]).map (fun v => strC "'" ++ v ++ strC "'")) := by
        simp only [List.map_append, List.map_cons, List.map_nil]
        rw [joinComma_concat]
        by_cases hd : done = []
        · simp [hd, joinComma]
        · have hlen : done.length > 0 := List.length_pos.mpr hd
          have hmapne : ¬ done.map (fun v => strC "'" ++ v ++ strC "'") = [] := by
            simp [List.map_eq_nil_iff, hd]
          rw [if_neg hmapne, if_pos hlen]
          simp [List.append_assoc]
      have hpksStep :
          (if c.isPk then
            (if (joinComma (((cols.take done.length).filter (·.isPk)).map (·.name))).length > 0
             then joinComma (((cols.take done.length).filter (·.isPk)).map (·.name)) ++ strC ", "
             else joinComma (((cols.take done.length).filter (·.isPk)).map (·.name))) ++ c.name
           else joinComma (((cols.take done.length).filter (·.isPk)).map (·.name)))
          = joinComma (((cols.take (done.length + 1)).filter (·.isPk)).map (·.name)) := by
        rw [htake, List.filter_append]
        by_cases hpk : c.isPk
        · simp only [hpk, if_true, List.filter_cons, List.filter_nil, List.map_append,
            List.map_cons, List.map_nil]
          rw [joinComma_concat]
          by_cases hfe : ((cols.take done.length).filter (·.isPk)).map (·.name) = []
          · rw [if_pos hfe, hfe]
            simp [joinComma]
          · have hne : joinComma (((cols.take done.length).filter (·.isPk)).map (·.name))
                ≠ [] := by
              refine joinComma_ne_nil _ ?_ hfe
              intro x hx
              obtain ⟨cc, hcc, hccx⟩ := List.mem_map.mp hx
              exact hccx ▸ hn cc (List.mem_of_mem_take (List.mem_of_mem_filter hcc))
            rw [if_neg hfe, if_pos (by simpa [List.length_pos] using hne)]
        · simp only [hpk, Bool.false_eq_true, if_false, List.filter_cons]
          simp [hpk]
      simp only [insertRowAux, hc]
      rw [hnamesStep, hvalsStep, hpksStep]
      have h1 : done.length + (v :: rest).length = done.length + 1 + rest.length := by
        simp only [List.length_cons]
        omega
      have h2 : done ++ [v] ++ rest = done ++ v :: rest := by simp
      rw [h2] at hih
      rw [h1]
      exact hih

/-- C10: the seed-insert generator indexes the column list by value position:
a row within bounds (given non-empty column names) produces an INSERT whose
column list follows declaration order, truncated to the row's width, while a
row with more values than declared columns makes `Table::insert` panic on
`unwrap` instead of returning an error. -/
theorem claim_C10_seed_insert :
    (∀ (t : Table) (data : Chars) (row : List Chars) (schema : Chars),
        (∀ c ∈ t.columns.list, c.name ≠ []) → row.length ≤ t.columns.list.length →
        t.insertRow data row schema
          = .ok (data ++ strC " insert into " ++ schema ++ strC "." ++ t.tableName ++ strC " ("
              ++ joinComma ((t.columns.list.take row.length).map (·.name)) ++ strC ") values ("
              ++ joinComma (row.map (fun v => strC "'" ++ v ++ strC "'"))
              ++ strC ") ON CONFLICT ("
              ++ joinComma (((t.columns.list.take row.length).filter (·.isPk)).map (·.name))
              ++ strC ") DO NOTHING;" ++ strC "\n"))
    ∧ exC10table.insertRow [] [strC "1", strC "x"] (strC "s")
        = .error (strC "called Option::unwrap on a None value") := by
  constructor
  · intro t data row schema hn hlen
    have hspec := insertRowAux_spec t.columns.list hn row [] (by simpa using hlen)
    simp only [List.length_nil, Nat.zero_add, List.take_zero, List.map_nil, List.filter_nil,
      joinComma, List.nil_append] at hspec
    unfold Table.insertRow
    rw [hspec]
    rfl
  · decide

/-- C10 witness: a one-value row on the one-column fixture — the theorem's
within-bounds clause applied at a concrete input. -/
theorem claim_C10_witness :
    exC10table.insertRow [] [strC "7"] (strC "s")
      = .ok ([] ++ strC " insert into " ++ strC "s" ++ strC "." ++ exC10table.tableName
          ++ strC " ("
          ++ joinComma ((exC10table.columns.list.take 1).map (·.name)) ++ strC ") values ("
          ++ joinComma ([strC "7"].map (fun v => strC "'" ++ v ++ strC "'"))
          ++ strC ") ON CONFLICT ("
          ++ joinComma (((exC10table.columns.list.take 1).filter (·.isPk)).map (·.name))
          ++ strC ") DO NOTHING;" ++ strC "\n") :=
  claim_C10_seed_insert.1 exC10table [] [strC "7"] (strC "s") (by decide) (by decide)

/-- Helper: overriding never changes an entry's name. -/
theorem overrideWith_name {α : Type} [Named α] (sl : List α) (x : α) :
    Named.getName (overrideWith sl x) = Named.getName x := by
  unfold overrideWith
  cases hf : sl.find? (fun c => Named.getName c = Named.getName x) with
  | none => rfl
  | some c => simpa using List.find?_some hf

/-- Helper: overriding by nobody changes nothing. -/
theorem overrideWith_nil {α : Type} [Named α] (x : α) : overrideWith ([] : List α) x = x := rfl

/-- Helper: the merged list over an empty consuming list is the template list. -/
theorem mergedListSpec_nil {α : Type} [Named α] (tl : List α) :
    mergedListSpec tl [] = tl := by
  have h : ∀ x ∈ tl, overrideWith ([] : List α) x = x := fun x _ => rfl
  simp [mergedListSpec, remainderOf, List.map_congr_left h]

/-- Helper: extending the consuming list by one fresh-named entry refines the
override pointwise. -/
theorem overrideWith_append_one {α : Type} [Named α] (p : List α) (c t : α)
    (hcn : Named.getName c ∉ p.map Named.getName) :
    overrideWith (p ++ [c]) t
      = if Named.getName t = Named.getName c then c else overrideWith p t := by
  unfold overrideWith
  rw [List.find?_append]
  cases hf : p.find? (fun x => Named.getName x = Named.getName t) with
  | some u =>
    have hu : Named.getName u = Named.getName t := by simpa using List.find?_some hf
    have hmem : u ∈ p := List.mem_of_find?_eq_some hf
    have : ¬ Named.getName t = Named.getName c := by
      intro hEq
      exact hcn (List.mem_map.mpr ⟨u, hmem, by rw [hu, hEq]⟩)
    simp [this]
  | none =>
    by_cases hEq : Named.getName t = Named.getName c
    · simp [List.find?, hEq]
    · have : ¬ Named.getName c = Named.getName t := fun h => hEq h.symm
      simp [List.find?, this, hEq]

/-- Helper: `OrderedHashMap::append` with ignored errors collects fresh-named
non-empty-named entries in order. -/
theorem ohmap_appendIgnore_fold {α : Type} [Named α] :
    ∀ (tl acc : List α), (∀ x ∈ tl, Named.getName x ≠ []) →
      ((acc ++ tl).map Named.getName).Nodup →
      tl.foldl OHMap.appendIgnore ⟨acc⟩ = (⟨acc ++ tl⟩ : OHMap α) := by
  intro tl
  induction tl with
  | nil => intro acc h1 h2; simp
  | cons x rest ih =>
    intro acc h1 h2
    have hxne : Named.getName x ≠ [] := h1 x (by simp)
    have hnotin : Named.getName x ∉ acc.map Named.getName := by
      rw [List.map_append, List.nodup_append] at h2
      intro hmem
      exact h2.2.2 hmem (by simp)
    have hany : acc.any (fun y => Named.getName y = Named.getName x) = false := by
      rw [Bool.eq_false_iff, ne_eq, List.any_eq_true]
      rintro ⟨y, hy, hyx⟩
      exact hnotin (List.mem_map.mpr ⟨y, hy, by simpa using hyx⟩)
    have hstep : OHMap.appendIgnore ⟨acc⟩ x = (⟨acc ++ [x]⟩ : OHMap α) := by
      unfold OHMap.appendIgnore OHMap.append OHMap.containsKey
      simp [hxne, List.isEmpty_iff, hany]
    rw [List.foldl_cons, hstep]
    have hih := ih (acc ++ [x]) (fun y hy => h1 y (by simp [hy]))
      (by simpa [List.append_assoc] using h2)
    simpa [List.append_assoc] using hih

/-- Helper: the override/append loop of `merge_from` computes the spec's merged
list, processed prefix by processed prefix. -/
theorem ohmap_merge_fold {α : Type} [Named α] :
    ∀ (sl p tl : List α),
      (∀ x ∈ sl, Named.getName x ≠ []) →
      ((p ++ sl).map Named.getName).Nodup →
      sl.foldl (fun (m : OHMap α) col =>
          if m.containsKey (Named.getName col) then m.setAt (Named.getName col) col
          else m.appendIgnore col) ⟨mergedListSpec tl p⟩
      = (⟨mergedListSpec tl (p ++ sl)⟩ : OHMap α) := by
  intro sl
  induction sl with
  | nil => intro p tl h1 h2; simp
  | cons c rest ih =>
    intro p tl h1 h2
    have hcne : Named.getName c ≠ [] := h1 c (by simp)
    have hcnp : Named.getName c ∉ p.map Named.getName := by
      rw [List.map_append, List.nodup_append] at h2
      intro hmem
      exact h2.2.2 hmem (by simp)
    have hremp : ∀ x ∈ remainderOf tl p, ¬ Named.getName x = Named.getName c := by
      intro x hx hEq
      have hxp : x ∈ p := List.mem_of_mem_filter hx
      exact hcnp (List.mem_map.mpr ⟨x, hxp, hEq⟩)
    have hstep : (if OHMap.containsKey ⟨mergedListSpec tl p⟩ (Named.getName c) then
          OHMap.setAt ⟨mergedListSpec tl p⟩ (Named.getName c) c
        else OHMap.appendIgnore ⟨mergedListSpec tl p⟩ c)
        = (⟨mergedListSpec tl (p ++ [c])⟩ : OHMap α) := by
      by_cases hmem : Named.getName c ∈ tl.map Named.getName
      · -- same-named entry: replaced in place
        have hex : ∃ x ∈ tl, Named.getName x = Named.getName c := by
          obtain ⟨t, ht, htn⟩ := List.mem_map.mp hmem
          exact ⟨t, ht, htn⟩
        have hck : OHMap.containsKey ⟨mergedListSpec tl p⟩ (Named.getName c) = true := by
          unfold OHMap.containsKey
          rw [List.any_eq_true]
          obtain ⟨t, ht, htn⟩ := hex
          refine ⟨overrideWith p t,
            List.mem_append_left _ (List.mem_map.mpr ⟨t, ht, rfl⟩), ?_⟩
          simp [overrideWith_name, htn]
        have hsetAt : OHMap.setAt ⟨mergedListSpec tl p⟩ (Named.getName c) c
            = (⟨mergedListSpec tl (p ++ [c])⟩ : OHMap α) := by
          have hA : ∀ t ∈ tl,
              (if Named.getName (overrideWith p t) = Named.getName c then c
                else overrideWith p t) = overrideWith (p ++ [c]) t := by
            intro t _
            rw [overrideWith_append_one p c t hcnp, overrideWith_name]
          have hB : ∀ x ∈ remainderOf tl p,
              (if Named.getName x = Named.getName c then c else x) = x := by
            intro x hx
            simp [hremp x hx]
          have hrem1 : remainderOf tl (p ++ [c]) = remainderOf tl p := by
            simp [remainderOf, List.filter_append, hex]
          unfold OHMap.setAt
          simp only [mergedListSpec, List.map_append, OHMap.mk.injEq, List.map_map,
            Function.comp_def]
          rw [List.map_congr_left hA, List.map_congr_left hB, hrem1]
          simp
        rw [hck]
        exact (if_pos rfl).trans hsetAt
      · -- fresh name: appended at the end
        have hall : ∀ x ∈ tl, ¬ Named.getName x = Named.getName c := by
          intro x hx hEq
          exact hmem (List.mem_map.mpr ⟨x, hx, hEq⟩)
        have hck : OHMap.containsKey ⟨mergedListSpec tl p⟩ (Named.getName c) = false := by
          unfold OHMap.containsKey
          rw [Bool.eq_false_iff, ne_eq, List.any_eq_true]
          rintro ⟨x, hx, hxn⟩
          have hxn2 : Named.getName x = Named.getName c := by simpa using hxn
          rcases List.mem_append.mp hx with hx1 | hx2
          · obtain ⟨t, ht, rfl⟩ := List.mem_map.mp hx1
            rw [overrideWith_name] at hxn2
            exact hmem (List.mem_map.mpr ⟨t, ht, hxn2⟩)
          · exact hremp x hx2 hxn2
        have happ : OHMap.appendIgnore ⟨mergedListSpec tl p⟩ c
            = (⟨mergedListSpec tl p ++ [c]⟩ : OHMap α) := by
          unfold OHMap.appendIgnore OHMap.append
          simp [hcne, List.isEmpty_iff, hck]
        have hmerge1 : mergedListSpec tl p ++ [c] = mergedListSpec tl (p ++ [c]) := by
          have hA : ∀ t ∈ tl, overrideWith p t = overrideWith (p ++ [c]) t := by
            intro t ht
            rw [overrideWith_append_one p c t hcnp]
            have hne : ¬ Named.getName t = Named.getName c := by
              intro hEq
              exact hmem (List.mem_map.mpr ⟨t, ht, hEq⟩)
            rw [if_neg hne]
          have hrem1 : remainderOf tl (p ++ [c]) = remainderOf tl p ++ [c] := by
            simp [remainderOf, List.filter_append]
            exact hall
          simp only [mergedListSpec]
          rw [List.map_congr_left hA, hrem1, List.append_assoc]
        rw [hck]
        refine (if_neg ?_).trans (happ.trans ?_)
        · simp
        · rw [hmerge1]
    rw [List.foldl_cons, hstep]
    have hih := ih (p ++ [c]) tl (fun x hx => h1 x (by simp [hx]))
      (by simpa [List.append_assoc] using h2)
    rw [hih]
    simp [List.append_assoc]

/-- Helper: `Named::name` on a table is its `tableName`. -/
theorem getName_table (t : Table) : (Named.getName t : Chars) = t.tableName := rfl

/-- C9: template merge semantics.  `merge_from` puts the template's columns and
triggers first in template order, with same-named entries replaced in place by
the consuming table's version, followed by the consuming table's remaining
entries in declaration order; grants are combined template-first; owner,
description, create-suffix sql and table-level constraint are inherited from
the template exactly when the consuming table's field is empty.  And
`resolve_templates` applies a referenced same-schema template to the referencing
table via `merge_from`, leaving the template itself untouched. -/
theorem claim_C9_template_merge :
    (∀ (t tpl : Table),
      (∀ c ∈ tpl.columns.list, c.name ≠ []) →
      (∀ c ∈ t.columns.list, c.name ≠ []) →
      ((tpl.columns.list.map Column.name).Nodup) →
      ((t.columns.list.map Column.name).Nodup) →
      (∀ g ∈ tpl.triggers.list, g.name ≠ []) →
      (∀ g ∈ t.triggers.list, g.name ≠ []) →
      ((tpl.triggers.list.map Trig.name).Nodup) →
      ((t.triggers.list.map Trig.name).Nodup) →
      (t.mergeFrom tpl).columns.list
          = tpl.columns.list.map (overrideWith t.columns.list)
            ++ remainderOf tpl.columns.list t.columns.list
        ∧ (t.mergeFrom tpl).triggers.list
          = tpl.triggers.list.map (overrideWith t.triggers.list)
            ++ remainderOf tpl.triggers.list t.triggers.list
        ∧ (t.mergeFrom tpl).grant = tpl.grant ++ t.grant
        ∧ (t.mergeFrom tpl).owner
          = (if t.owner = [] ∧ ¬ tpl.owner = [] then tpl.owner else t.owner)
        ∧ (t.mergeFrom tpl).description
          = (if t.description = [] ∧ ¬ tpl.description = [] then tpl.description
             else t.description)
        ∧ (t.mergeFrom tpl).sql
          = (if t.sql = [] ∧ ¬ tpl.sql = [] then tpl.sql else t.sql)
        ∧ (t.mergeFrom tpl).constraint
          = (if t.constraint = [] ∧ ¬ tpl.constraint = [] then tpl.constraint
             else t.constraint))
    ∧ (∀ (nm ow fl ref : Chars) (allS : OHMap Schema) (tb tpl : Table),
        tb.useTemplates = [ref] → tpl.useTemplates = [] → tpl.tableName = ref →
        ref.any (fun ch => ch == '.') = false → tpl.isTemplateB = true →
        ¬ tb.tableName = ref →
        Schema.resolveTemplates ⟨nm, ow, ⟨[tpl, tb]⟩, fl⟩ allS
          = .ok ⟨nm, ow, ⟨[tpl, tb.mergeFrom tpl]⟩, fl⟩) := by
  constructor
  · intro t tpl htplcn htcn htplcd htcd htpltn httn htpltd httd
    have hcols : (t.mergeFrom tpl).columns
        = (⟨mergedListSpec tpl.columns.list t.columns.list⟩ : OHMap Column) := by
      show (t.columns.list.foldl
          (fun (m : OHMap Column) col =>
            if m.containsKey col.name then m.setAt col.name col else m.appendIgnore col)
          (tpl.columns.list.foldl OHMap.appendIgnore OHMap.emptyM)) = _
      have h1 : tpl.columns.list.foldl OHMap.appendIgnore OHMap.emptyM
          = (⟨tpl.columns.list⟩ : OHMap Column) :=
        ohmap_appendIgnore_fold tpl.columns.list [] htplcn (by simpa using htplcd)
      rw [h1]
      have h2 := ohmap_merge_fold t.columns.list [] tpl.columns.list htcn
        (by simpa using htcd)
      rw [mergedListSpec_nil, List.nil_append] at h2
      exact h2
    have htrig : (t.mergeFrom tpl).triggers
        = (⟨mergedListSpec tpl.triggers.list t.triggers.list⟩ : OHMap Trig) := by
      show (t.triggers.list.foldl
          (fun (m : OHMap Trig) trig =>
            if m.containsKey trig.name then m.setAt trig.name trig else m.appendIgnore trig)
          (tpl.triggers.list.foldl OHMap.appendIgnore OHMap.emptyM)) = _
      have h1 : tpl.triggers.list.foldl OHMap.appendIgnore OHMap.emptyM
          = (⟨tpl.triggers.list⟩ : OHMap Trig) :=
        ohmap_appendIgnore_fold tpl.triggers.list [] htpltn (by simpa using htpltd)
      rw [h1]
      have h2 := ohmap_merge_fold t.triggers.list [] tpl.triggers.list httn
        (by simpa using httd)
      rw [mergedListSpec_nil, List.nil_append] at h2
      exact h2
    refine ⟨congrArg OHMap.list hcols, congrArg OHMap.list htrig, rfl, ?_, ?_, ?_, ?_⟩
    · simp [Table.mergeFrom, List.isEmpty_iff]
    · simp [Table.mergeFrom, List.isEmpty_iff]
    · simp [Table.mergeFrom, List.isEmpty_iff]
    · simp [Table.mergeFrom, List.isEmpty_iff]
  · intro nm ow fl ref allS tb tpl htbu htplu htpln hdot htplt hne
    have hne2 : ¬ ref = tb.tableName := fun h => hne h.symm
    have hdotmem : ¬ ('.' ∈ ref) := by
      intro hmemd
      have hcontra : ref.any (fun ch => ch == '.') = true :=
        List.any_eq_true.mpr ⟨'.', hmemd, by decide⟩
      rw [hdot] at hcontra
      exact Bool.false_ne_true hcontra
    unfold Schema.resolveTemplates
    simp [htbu, hdotmem, htplu, htpln, hdot, htplt, hne2, OHMap.get, OHMap.setAt,
      List.foldlM, List.find?, List.filter, getName_table, Bind.bind, Except.bind,
      Pure.pure, Except.pure]

/-- C9 witness: the template-merge characterization and the template-resolution
step applied to a concrete template/consumer pair. -/
theorem claim_C9_witness :
    ((exC9t.mergeFrom exC9tpl).columns.list
        = exC9tpl.columns.list.map (overrideWith exC9t.columns.list)
          ++ remainderOf exC9tpl.columns.list exC9t.columns.list)
    ∧ Schema.resolveTemplates ⟨strC "app", strC "o", ⟨[exC9tpl, exC9t]⟩, strC "f"⟩
          OHMap.emptyM
        = .ok ⟨strC "app", strC "o", ⟨[exC9tpl, exC9t.mergeFrom exC9tpl]⟩, strC "f"⟩ :=
  ⟨(claim_C9_template_merge.1 exC9t exC9tpl (by decide) (by decide) (by decide)
      (by decide) (by decide) (by decide) (by decide) (by decide)).1,
   claim_C9_template_merge.2 (strC "app") (strC "o") (strC "f") (strC "base")
     OHMap.emptyM exC9t exC9tpl (by decide) (by decide) (by decide) (by decide)
     (by decide) (by decide)⟩

/-- Helper: `dropWhile` is the identity when no element satisfies the predicate. -/
theorem dropWhile_eq_self_of_false {p : Char → Bool} :
    ∀ (l : Chars), (∀ c ∈ l, p c = false) → l.dropWhile p = l := by
  intro l h
  cases l with
  | nil => rfl
  | cons a r =>
    rw [List.dropWhile_cons, h a (by simp)]
    simp

/-- Helper: trimming a string with no whitespace is the identity. -/
theorem trimChars_of_no_ws (D : Chars) (h : ∀ c ∈ D, isWs c = false) :
    trimChars D = D := by
  unfold trimChars
  rw [dropWhile_eq_self_of_false D h,
    dropWhile_eq_self_of_false D.reverse (fun c hc => h c (List.mem_reverse.mp hc))]
  exact List.reverse_reverse D

/-- Helper: `str::find(c)` over a concatenation. -/
theorem findCharIdx_append (c : Char) :
    ∀ (l1 l2 : Chars), findCharIdx c (l1 ++ l2)
      = (match findCharIdx c l1 with
         | some i => some i
         | none => (findCharIdx c l2).map (· + l1.length)) := by
  intro l1
  induction l1 with
  | nil =>
    intro l2
    simp [findCharIdx]
  | cons a r ih =>
    intro l2
    simp only [List.cons_append, findCharIdx]
    by_cases h : a = c
    · simp [h]
    · rw [if_neg h, if_neg h]
      simp only [List.append_eq]
      rw [ih l2]
      cases hr : findCharIdx c r with
      | some i => simp
      | none =>
        cases h2 : findCharIdx c l2 with
        | none => simp
        | some j =>
          simp only [Option.map, Option.some.injEq, List.length_cons]
          omega

/-- Helper: all the facts the classifier proofs need about a decimal digit
character. -/
theorem digitChar_facts (k : Nat) (hk : k < 10) :
    (Nat.digitChar k).isDigit = true ∧ Char.toLower (Nat.digitChar k) = Nat.digitChar k
    ∧ isWs (Nat.digitChar k) = false ∧ ((Nat.digitChar k) == ',') = false
    ∧ Nat.digitChar k ≠ '+' ∧ Nat.digitChar k ≠ '-'
    ∧ (Nat.digitChar k).toNat - 48 = k := by
  interval_cases k <;> exact (by decide)

/-- Helper: every character of the decimal rendering is a digit character. -/
theorem natChars_mem (n : Nat) : ∀ c ∈ natChars n, ∃ k, k < 10 ∧ c = Nat.digitChar k := by
  intro c hc
  rw [natChars, List.mem_reverse, List.mem_map] at hc
  obtain ⟨k, hk, rfl⟩ := hc
  exact ⟨k, Nat.digits_lt_base (by norm_num) hk, rfl⟩

/-- Helper: `str::parse` reads a big-endian digit-character list into the
left-fold accumulator. -/
theorem parseDigitsAux_digits :
    ∀ (bs : List Nat) (acc : Nat), (∀ d ∈ bs, d < 10) →
      parseDigitsAux (bs.map Nat.digitChar) acc
        = some (bs.foldl (fun a d => a * 10 + d) acc) := by
  intro bs
  induction bs with
  | nil => intro acc h; rfl
  | cons b bs ih =>
    intro acc h
    have hb := digitChar_facts b (h b (by simp))
    rw [List.map_cons]
    show (if (Nat.digitChar b).isDigit then
        parseDigitsAux (List.map Nat.digitChar bs) (acc * 10 + ((Nat.digitChar b).toNat - 48))
      else none) = _
    rw [hb.1, if_pos rfl, hb.2.2.2.2.2.2]
    exact ih _ (fun d hd => h d (by simp [hd]))

/-- Helper: folding the reversed digit list recovers `ofDigits`. -/
theorem foldl_reverse_ofDigits :
    ∀ (ds : List Nat) (acc : Nat),
      ds.reverse.foldl (fun a d => a * 10 + d) acc
        = acc * 10 ^ ds.length + Nat.ofDigits 10 ds := by
  intro ds
  induction ds with
  | nil => intro acc; simp [Nat.ofDigits]
  | cons d ds ih =>
    intro acc
    rw [List.reverse_cons, List.foldl_append, ih, List.foldl_cons, List.foldl_nil,
      Nat.ofDigits_cons, List.length_cons]
    ring

/-- Helper: `str::parse` inverts the decimal rendering (digit phase). -/
theorem parseDigits_natChars (n : Nat) (h1 : 1 ≤ n) :
    parseDigits (natChars n) = some n := by
  have hne : Nat.digits 10 n ≠ [] := by
    rw [Nat.digits_ne_nil_iff_ne_zero]
    omega
  have hlt : ∀ d ∈ (Nat.digits 10 n).reverse, d < 10 :=
    fun d hd => Nat.digits_lt_base (by norm_num) (List.mem_reverse.mp hd)
  have hmap : natChars n = (Nat.digits 10 n).reverse.map Nat.digitChar := by
    rw [natChars, List.map_reverse]
  have hne2 : ¬ (natChars n).isEmpty = true := by
    rw [List.isEmpty_iff, hmap]
    simp [hne]
  unfold parseDigits
  rw [if_neg hne2, hmap, parseDigitsAux_digits _ 0 hlt, foldl_reverse_ofDigits,
    Nat.ofDigits_digits]
  simp

/-- Helper: `str::parse::<i32>` inverts the decimal rendering within range. -/
theorem rustParseI32_natChars (n : Nat) (h1 : 1 ≤ n) (h2 : n ≤ 2147483647) :
    rustParseI32 (natChars n) = some (n : Int) := by
  have hpd := parseDigits_natChars n h1
  cases hD : natChars n with
  | nil =>
    rw [hD] at hpd
    exact absurd hpd (by simp [parseDigits])
  | cons d rest =>
    have hdm : d ∈ natChars n := by
      rw [hD]
      simp
    obtain ⟨k, hk, rfl⟩ := natChars_mem n d hdm
    have hf := digitChar_facts k hk
    rw [hD] at hpd
    simp only [rustParseI32]
    rw [if_neg hf.2.2.2.2.1, if_neg hf.2.2.2.2.2.1, hpd]
    simp [h2]

/-- Helper: `parse_type_size` on `varchar(<digits>)` for an arbitrary list of
plain digit-like characters. -/
theorem parseTypeSize_varchar (D : Chars)
    (hd : ∀ c ∈ D, Char.toLower c = c ∧ isWs c = false ∧ (c == ',') = false) :
    parseTypeSize (strC "varchar(" ++ D ++ strC ")")
      = .ok (strC "varchar", rustParseI32 D, none) := by
  have hDlower : List.map Char.toLower D = D := by
    have h := List.map_congr_left (fun c hc => (hd c hc).1)
    simpa using h
  have hA : List.map Char.toLower (strC "varchar(") = strC "varchar(" := by decide
  have hB : List.map Char.toLower (strC ")") = strC ")" := by decide
  have hlower : lowerChars (strC "varchar(" ++ D ++ strC ")")
      = strC "varchar(" ++ D ++ strC ")" := by
    unfold lowerChars
    rw [List.map_append, List.map_append, hA, hDlower, hB]
  have hnows : ∀ c ∈ strC "varchar(" ++ D ++ strC ")", isWs c = false := by
    intro c hc
    rcases List.mem_append.mp hc with hc1 | hc2
    · rcases List.mem_append.mp hc1 with hc3 | hc4
      · exact (by decide : ∀ x ∈ strC "varchar(", isWs x = false) c hc3
      · exact (hd c hc4).2.1
    · exact (by decide : ∀ x ∈ strC ")", isWs x = false) c hc2
  have htrim : trimChars (strC "varchar(" ++ D ++ strC ")")
      = strC "varchar(" ++ D ++ strC ")" := trimChars_of_no_ws _ hnows
  have hfind : findCharIdx '(' (strC "varchar(" ++ D ++ strC ")") = some 7 := by
    rw [List.append_assoc, findCharIdx_append]
    rfl
  have hAlen : (strC "varchar(").length = 8 := rfl
  have hBlen : (strC ")").length = 1 := rfl
  have hlen : (strC "varchar(" ++ D ++ strC ")").length = D.length + 9 := by
    rw [List.length_append, List.length_append, hAlen, hBlen]
    omega
  have hgt : ¬ (7 + 1 > D.length + 9 - 1) := by omega
  have htake : (strC "varchar(" ++ D ++ strC ")").take 7 = strC "varchar" := by
    rw [List.take_append_eq_append_take, List.take_append_eq_append_take]
    have h3 : 7 - (strC "varchar(" ++ D).length = 0 := by
      rw [List.length_append, hAlen]
      omega
    rw [hAlen, h3]
    simp
    decide
  have hdrop : (strC "varchar(" ++ D ++ strC ")").drop (7 + 1) = D ++ strC ")" := by
    rw [List.append_assoc, List.drop_append_eq_append_drop, hAlen]
    have h4 : (strC "varchar(").drop (7 + 1) = [] := rfl
    rw [h4]
    simp
  have htakeL : (D ++ strC ")").take (D.length + 9 - 1 - (7 + 1)) = D := by
    have h : D.length + 9 - 1 - (7 + 1) = D.length := by omega
    rw [h, List.take_append_eq_append_take, List.take_length]
    simp
  have hcomma : (D.any (fun c => c == ',')) = false := by
    rw [Bool.eq_false_iff, ne_eq, List.any_eq_true]
    rintro ⟨c, hc, hcc⟩
    rw [(hd c hc).2.2] at hcc
    exact Bool.false_ne_true hcc
  have htrimD : trimChars D = D := trimChars_of_no_ws D (fun c hc => (hd c hc).2.1)
  have htrimV : trimChars (strC "varchar") = strC "varchar" := by decide
  have hdrop8 : (strC "varchar(" ++ D ++ strC ")").drop 8 = D ++ strC ")" := hdrop
  have htakeL8 : (D ++ strC ")").take (D.length + 9 - 1 - 8) = D := htakeL
  unfold parseTypeSize
  simp only [hlower, htrim, hfind, hlen, hgt, if_false, htake, hdrop, hdrop8,
    htakeL, htakeL8, hcomma, htrimD, htrimV, Bool.false_eq_true]

/-- C6 (amended): classifier laws on parseable inputs.  For every type string
on which `parse_type_size` succeeds (does not panic), `classify(t, t)` is
`NoChange`; and for positive `n`, `m` within the i32 range,
`classify(varchar(n), varchar(m))` is `SizeExtension` iff `n < m` and
`SizeReduction` iff `m < n`. -/
theorem claim_C6_amended_classifier_laws :
    (∀ (t : Chars) (p : Chars × Option Int × Option Int),
      parseTypeSize t = .ok p → analyzeTypeChange t t = .ok TypeChange.noChange)
    ∧ (∀ (n m : Nat), 1 ≤ n → n ≤ 2147483647 → 1 ≤ m → m ≤ 2147483647 →
      (analyzeTypeChange (mkVarchar n) (mkVarchar m) = .ok TypeChange.sizeExtension
        ↔ n < m)
      ∧ (analyzeTypeChange (mkVarchar n) (mkVarchar m) = .ok TypeChange.sizeReduction
        ↔ m < n)) := by
  constructor
  · rintro t ⟨b, sz, sc⟩ hp
    unfold analyzeTypeChange
    rw [hp]
    have hsame : ∀ (sz2 sc2 : Option Int),
        sameBaseChange sz2 sz2 sc2 sc2 = TypeChange.noChange := by
      intro sz2 sc2
      cases sz2 <;> cases sc2 <;> simp [sameBaseChange]
    simp [hsame]
  · intro n m hn1 hn2 hm1 hm2
    have hdf : ∀ (j : Nat), ∀ c ∈ natChars j,
        Char.toLower c = c ∧ isWs c = false ∧ (c == ',') = false := by
      intro j c hc
      obtain ⟨k, hk, rfl⟩ := natChars_mem j c hc
      have hf := digitChar_facts k hk
      exact ⟨hf.2.1, hf.2.2.1, hf.2.2.2.1⟩
    have hmkn : mkVarchar n = strC "varchar(" ++ natChars n ++ strC ")" := by
      unfold mkVarchar natRepr
      rw [if_neg (by omega)]
    have hmkm : mkVarchar m = strC "varchar(" ++ natChars m ++ strC ")" := by
      unfold mkVarchar natRepr
      rw [if_neg (by omega)]
    have hpn : parseTypeSize (mkVarchar n) = .ok (strC "varchar", some (n : Int), none) := by
      rw [hmkn, parseTypeSize_varchar (natChars n) (hdf n), rustParseI32_natChars n hn1 hn2]
    have hpm : parseTypeSize (mkVarchar m) = .ok (strC "varchar", some (m : Int), none) := by
      rw [hmkm, parseTypeSize_varchar (natChars m) (hdf m), rustParseI32_natChars m hm1 hm2]
    have hmain : analyzeTypeChange (mkVarchar n) (mkVarchar m)
        = .ok (if (n : Int) = (m : Int) then TypeChange.noChange
               else if (m : Int) > (n : Int) then TypeChange.sizeExtension
               else TypeChange.sizeReduction) := by
      unfold analyzeTypeChange
      rw [hpn, hpm]
      rfl
    rw [hmain]
    rcases Nat.lt_trichotomy n m with h | h | h
    · have h5 : ¬ (n : Int) = (m : Int) := by omega
      have h6 : (m : Int) > (n : Int) := by omega
      rw [if_neg h5, if_pos h6]
      exact ⟨⟨fun _ => h, fun _ => rfl⟩,
        ⟨fun hc => absurd hc (by decide), fun hc => absurd hc (by omega)⟩⟩
    · have h5 : (n : Int) = (m : Int) := by omega
      rw [if_pos h5]
      exact ⟨⟨fun hc => absurd hc (by decide), fun hc => absurd hc (by omega)⟩,
        ⟨fun hc => absurd hc (by decide), fun hc => absurd hc (by omega)⟩⟩
    · have h5 : ¬ (n : Int) = (m : Int) := by omega
      have h6 : ¬ (m : Int) > (n : Int) := by omega
      rw [if_neg h5, if_neg h6]
      exact ⟨⟨fun hc => absurd hc (by decide), fun hc => absurd hc (by omega)⟩,
        ⟨fun _ => h, fun _ => rfl⟩⟩

/-- C6 witness: the reflexivity law at `int4` and the size-extension law at
`varchar(10) → varchar(255)`. -/
theorem claim_C6_witness :
    analyzeTypeChange (strC "int4") (strC "int4") = .ok TypeChange.noChange
    ∧ (analyzeTypeChange (mkVarchar 10) (mkVarchar 255) = .ok TypeChange.sizeExtension
        ↔ 10 < 255) :=
  ⟨claim_C6_amended_classifier_laws.1 (strC "int4") (strC "int4", none, none) (by decide),
   (claim_C6_amended_classifier_laws.2 10 255 (by decide) (by decide) (by decide)
      (by decide)).1⟩

end SchemaGuard
